import Mathlib

/-!
Verification of the smartmon textfile collector (smartmon.py).

The Python source is shallowly embedded below.  External command invocation
(the smartctl binary) is modelled by an oracle `Oracle : List String → Bool × String`
mapping an argument list to the pair (exit-ok?, captured stdout); the code under
verification never inspects anything else about the subprocess.  Generators are
modelled as functions returning lists of metrics; a Python exception escaping a
generator (which aborts the whole collection in main) is modelled by the
`Except Unit` monad.  Strings are Lean strings; regular expressions of the source
are translated to explicit character-level functions, with ASCII semantics.
-/

namespace Smartmon

/-- Value carried by a metric: the Python code stores strings, booleans and
integers in the `value` field of the Metric namedtuple. -/
inductive MVal where
  | str (s : String)
  | bool (b : Bool)
  | nat (n : Nat)
deriving DecidableEq, Repr

/-- Metric namedtuple: name, labels (a Python dict, i.e. an insertion-ordered
association list with unique keys), value. -/
structure Metric where
  name : String
  labels : List (String × String)
  value : MVal
deriving DecidableEq, Repr

/-- Device namedtuple: path, and the parsed `-d`/`--device` option value
(`opts.type` in the source). -/
structure Device where
  path : String
  typ : String
deriving DecidableEq, Repr

/-- Everything after the first occurrence of a character, as in Python
`s.partition(c)[2]` (empty when the character does not occur). -/
def afterFirst (c : Char) : List Char → List Char
  | [] => []
  | x :: xs => if x = c then xs else afterFirst c xs

/-- The disk index from the type selector: `self.type.partition('+')[2] or '0'`. -/
def Device.disk (d : Device) : String :=
  let rest := afterFirst '+' d.typ.data
  if rest = [] then "0" else String.mk rest

/-- base_labels: `{'device': self.path, 'disk': ...}`. -/
def Device.baseLabels (d : Device) : List (String × String) :=
  [("device", d.path), ("disk", d.disk)]

/-- smartctl_select: `['--device', self.type, self.path]`. -/
def Device.select (d : Device) : List String :=
  ["--device", d.typ, d.path]

/-- smart_attributes_whitelist (a Python set; only membership is used). -/
def smart_attributes_whitelist : List String :=
  [ "airflow_temperature_cel", "command_timeout", "current_pending_sector",
    "end_to_end_error", "erase_fail_count_total", "g_sense_error_rate",
    "hardware_ecc_recovered", "host_reads_mib", "host_reads_32mib",
    "host_writes_mib", "host_writes_32mib", "load_cycle_count",
    "lifetime_writes_gib", "media_wearout_indicator", "wear_leveling_count",
    "nand_writes_1gib", "offline_uncorrectable", "power_cycle_count",
    "power_on_hours", "program_fail_count", "raw_read_error_rate",
    "reallocated_event_count", "reallocated_sector_ct", "reported_uncorrect",
    "sata_downshift_count", "seek_error_rate", "spin_retry_count",
    "spin_up_time", "start_stop_count", "temperature_case",
    "temperature_celsius", "temperature_internal", "total_bad_block",
    "total_lbas_read", "total_lbas_written", "total_writes_gib",
    "total_reads_gib", "udma_crc_error_count", "unsafe_shutdown_count",
    "unexpect_power_loss_ct", "workld_host_reads_perc",
    "workld_media_wear_indic", "workload_minutes" ]

/-- Space or tab, the character class `[\t\x20]` of the whitespace-collapsing
substitution. -/
def isTS (c : Char) : Bool := c = ' ' || c = '\t'

/-- Helper for `collapseWs`; the boolean records whether the previous character
belonged to a space/tab run already replaced by a single space. -/
def collapseAux : Bool → List Char → List Char
  | _, [] => []
  | inRun, c :: cs =>
    if isTS c then
      if inRun then collapseAux true cs else ' ' :: collapseAux true cs
    else c :: collapseAux false cs

/-- `re.sub(r'[\t\x20]+', ' ', s)`: collapse each run of spaces/tabs to a single
space (newlines untouched). -/
def collapseWs (s : String) : String := String.mk (collapseAux false s.data)

/-- `re.match(r'^(\d+)', s)`: the leading run of decimal digits, if nonempty. -/
def leadingDigits (s : String) : Option String :=
  let ds := s.data.takeWhile Char.isDigit
  if ds = [] then none else some (String.mk ds)

/-- The Python `\s` character class (ASCII part): space, tab, newline,
carriage return, vertical tab, form feed. -/
def isPySpace (c : Char) : Bool :=
  c = ' ' || c = '\t' || c = '\n' || c = '\r' || c = '\x0b' || c = '\x0c'

/-- Python `str.lower()` (ASCII semantics). -/
def pyLower (s : String) : String := String.mk (s.data.map Char.toLower)

/-- Python `str.strip()`: drop leading and trailing whitespace. -/
def pyStrip (s : String) : String :=
  String.mk (((s.data.dropWhile isPySpace).reverse.dropWhile isPySpace).reverse)

/-- Python `s.split(sep)` for a one-character separator: cut the character
list at every occurrence (an empty input gives one empty part, as in
Python). -/
def splitOnChar (sep : Char) : List Char → List (List Char)
  | [] => [[]]
  | c :: rest =>
    if c = sep then [] :: splitOnChar sep rest
    else
      match splitOnChar sep rest with
      | s :: ss => (c :: s) :: ss
      | [] => [[c]]

/-- Python `s.split('\n')`. -/
def pyLines (s : String) : List String := (splitOnChar '\n' s.data).map String.mk

/-- Python `s.startswith(p)`. -/
def pyStartsWith (s p : String) : Bool := p.data.isPrefixOf s.data

/-- Python `s.endswith(p)`. -/
def pyEndsWith (s p : String) : Bool := p.data.isSuffixOf s.data

/-- Strip an expected initial segment, returning the remainder on success. -/
def dropPre : List Char → List Char → Option (List Char)
  | [], l => some l
  | _ :: _, [] => none
  | p :: ps, c :: cs => if p = c then dropPre ps cs else none

/-- Fueled worker for `pyReplace`; the fuel (initially the input length) only
serves to make the recursion structural and is never exhausted for a nonempty
pattern. -/
def pyReplaceAux (pat rep : List Char) : Nat → List Char → List Char
  | _, [] => []
  | 0, l => l
  | fuel + 1, c :: cs =>
    match dropPre pat (c :: cs) with
    | some rem => rep ++ pyReplaceAux pat rep fuel rem
    | none => c :: pyReplaceAux pat rep fuel cs

/-- Python `s.replace(pat, rep)`: replace non-overlapping occurrences left to
right (only used with nonempty patterns). -/
def pyReplace (s pat rep : String) : String :=
  String.mk (pyReplaceAux pat.data rep.data s.data.length s.data)

/-- Python `' '.join(tokens)`. -/
def joinSpace : List String → String
  | [] => ""
  | [t] => t
  | t :: rest => t ++ " " ++ joinSpace rest

/-- One line of the (whitespace-collapsed) attribute table as seen by the CSV
reader with a single-space delimiter: the stripped line split on spaces; an
empty line yields the empty row, which the DictReader skips. -/
def tokensOfLine (line : String) : List String :=
  let t := pyStrip line
  if t = "" then [] else (splitOnChar ' ' t.data).map String.mk

/-- `'---'` thresholds are rewritten to `'0'`; anything else is kept. -/
def normalizeThreshold (t : String) : String := if t = "---" then "0" else t

/-- The four metrics yielded for one emitted attribute row, in source order
(value, worst, threshold, raw_value), all with labels
`{'name': nm, **device.base_labels}`. -/
def rowMetrics (d : Device) (nm val worst thr raw : String) : List Metric :=
  let labels := ("name", nm) :: d.baseLabels
  [ ⟨"attr_value", labels, .str val⟩,
    ⟨"attr_worst", labels, .str worst⟩,
    ⟨"attr_threshold", labels, .str thr⟩,
    ⟨"attr_raw_value", labels, .str raw⟩ ]

/-- The loop body of collect_ata_metrics over the token rows, threading the
`seen` set of already-emitted attribute names.  A row dictionary built by the
DictReader has `name = tokens[1]` (None when fewer than 2 tokens, so that
`.lower()` raises AttributeError, modelled as `.error`), and holds the restkey
`raw_value = tokens[9:]` only when more than 9 tokens are present (otherwise
`entry['raw_value']` raises KeyError, modelled as `.error`; this access happens
only after the whitelist test succeeded).  Rows failing the whitelist or the
leading-digits check are skipped; rows whose name was already seen are passed
over without emission. -/
def ataLoop (d : Device) : List (List String) → List String → Except Unit (List Metric)
  | [], _ => .ok []
  | ts :: rest, seen =>
    if ts = [] then ataLoop d rest seen
    else if ts.length < 2 then .error ()
    else
      let nm := pyLower (ts.getD 1 (""))
      if !(smart_attributes_whitelist.contains nm) then ataLoop d rest seen
      else if ts.length ≤ 9 then .error ()
      else
        match leadingDigits (joinSpace (ts.drop 9)) with
        | none => ataLoop d rest seen
        | some raw =>
          let thr := normalizeThreshold (ts.getD 5 (""))
          if seen.contains nm then ataLoop d rest seen
          else
            match ataLoop d rest (nm :: seen) with
            | .error e => .error e
            | .ok tail =>
              .ok (rowMetrics d nm (ts.getD 3 ("")) (ts.getD 4 ("")) thr raw ++ tail)

/-- The lines handed to the CSV reader by collect_ata_metrics: collapse
whitespace, strip the whole output, split on newlines, drop the 7 header
lines, and tokenize each line. -/
def ataLines (out : String) : List (List String) :=
  ((pyLines (pyStrip (collapseWs out))).drop 7).map tokensOfLine

/-- collect_ata_metrics, given the captured stdout of the
`--attributes` invocation. -/
def collect_ata_metrics (d : Device) (out : String) : Except Unit (List Metric) :=
  ataLoop d (ataLines out) []

/-- The index of the first colon of a character list, if any. -/
def colonIdx : List Char → Option Nat
  | [] => none
  | c :: cs => if c = ':' then some 0 else (colonIdx cs).map (· + 1)

/-- device_info_re, `^(?P<k>[^:]+?)(?:(?:\sis|):)\s*(?P<v>.*)$`, applied to one
line.  The separator group always contains a colon, optionally preceded by a
whitespace character and the letters `is`.  Because the lazy key cannot contain
a colon, the separator colon is the first colon of the line; the lazy key takes
the shortest admissible prefix, so it stops three characters early exactly when
the characters just before the colon are whitespace+`is` (and a nonempty key
remains).  `\s*` then greedily swallows whitespace after the colon and `.*`
takes the rest of the line. -/
def deviceInfoMatch (line : String) : Option (String × String) :=
  let cs := line.data
  match colonIdx cs with
  | none => none
  | some c =>
    if c = 0 then none
    else
      let keyLen :=
        if 4 ≤ c && isPySpace (cs.getD (c - 3) 'x') &&
            cs.getD (c - 2) 'x' = 'i' && cs.getD (c - 1) 'x' = 's'
        then c - 3 else c
      some (String.mk (cs.take keyLen),
            String.mk ((cs.drop (c + 1)).dropWhile isPySpace))

/-- device_info, given the stdout of the `--info` invocation: strip, split into
lines, drop the first 3 lines, and keep the (key, value) groups of the lines
matched by device_info_re. -/
def deviceInfoPairs (out : String) : List (String × String) :=
  ((pyLines (pyStrip out)).drop 3).filterMap deviceInfoMatch

/-- device_info_map, in Python dict insertion order. -/
def device_info_map : List (String × String) :=
  [ ("Vendor", "vendor"), ("Product", "product"), ("Revision", "revision"),
    ("Logical Unit id", "lun_id"), ("Model Family", "model_family"),
    ("Device Model", "device_model"), ("Serial Number", "serial_number"),
    ("Firmware Version", "firmware_version") ]

/-- Python dict assignment `dct[k] = v`: replace the value in place when the
key is present, else append the binding. -/
def dictSet : List (String × String) → String → String → List (String × String)
  | [], k, v => [(k, v)]
  | (k0, v0) :: rest, k, v =>
    if k0 = k then (k0, v) :: rest else (k0, v0) :: dictSet rest k v

/-- Python `dict(pairs)`: successive assignment of each pair (later pairs with
the same key override earlier ones). -/
def dictOfPairs (ps : List (String × String)) : List (String × String) :=
  ps.foldl (fun acc kv => dictSet acc kv.1 kv.2) []

/-- Python `{**a, **b}`. -/
def dictMerge (a b : List (String × String)) : List (String × String) :=
  b.foldl (fun acc kv => dictSet acc kv.1 kv.2) a

/-- The device_info metric of collect_device_info, given the `--info` stdout:
labels are the base labels merged with the translation (via device_info_map,
in its iteration order) of the parsed info values; the value is True. -/
def deviceInfoMetric (d : Device) (out : String) : Metric :=
  let values := dictOfPairs (deviceInfoPairs out)
  let infoLabels := device_info_map.filterMap
    (fun kv => (values.lookup kv.1).map (fun x => (kv.2, x)))
  ⟨"device_info", dictMerge d.baseLabels infoLabels, .bool true⟩

/-- The capability computation of device_smart_capabilities on the parsed
`--info` groups (the non-NVMe branch): collect the first space-separated word
of every `SMART support` value and test for `Available` / `Enabled`. -/
def smartCapabilities (out : String) : Bool × Bool :=
  let state := ((deviceInfoPairs out).filter (fun g => g.1 = "SMART support")).map
    (fun g => String.mk (g.2.data.takeWhile (fun c => c != ' ')))
  (state.contains ("Available"), state.contains ("Enabled"))

/-- self_test_re, `^SMART.*(PASSED|OK)$` with MULTILINE, searched in the
`--health` stdout: some line starts with `SMART` and ends with `PASSED` or
`OK`. -/
def selfTestSearch (out : String) : Bool :=
  (pyLines out).any
    (fun l => pyStartsWith l ("SMART") && (pyEndsWith l ("PASSED") || pyEndsWith l ("OK")))

/-- Leading decimal digits of a character list, with the remainder. -/
def takeDigits (cs : List Char) : List Char × List Char :=
  (cs.takeWhile Char.isDigit, cs.dropWhile Char.isDigit)

/-- ata_error_count_re, `^Error (\d+) \[\d+\] occurred` with MULTILINE,
applied at the start of one line: `Error `, a digit run (captured), ` [`, a
digit run, `] occurred`. -/
def ataErrLine (l : String) : Option String :=
  let cs := l.data
  if cs.take 6 = ("Error ").data then
    let p1 := takeDigits (cs.drop 6)
    if p1.1 ≠ [] && p1.2.take 2 = " [".data then
      let p2 := takeDigits (p1.2.drop 2)
      if p2.1 ≠ [] && p2.2.take 10 = "] occurred".data then
        some (String.mk p1.1)
      else none
    else none
  else none

/-- collect_ata_error_count, given the stdout of the error-log query (whose
non-zero exit is tolerated): the first line matching ata_error_count_re gives
the captured digit string; otherwise the integer 0. -/
def ataErrorCountMetric (d : Device) (out : String) : Metric :=
  match (pyLines out).findSome? ataErrLine with
  | some n => ⟨"device_errors", d.baseLabels, .str n⟩
  | none => ⟨"device_errors", d.baseLabels, .nat 0⟩

/-- One line of the NVMe attribute block: `label, value = line.split(':')`
fails (ValueError, modelled as `.error`) unless the line contains exactly one
colon; the dispatch on the label then yields at most one metric. -/
def nvmeLine (d : Device) (line : String) : Except Unit (List Metric) :=
  match (splitOnChar ':' line.data).map String.mk with
  | [label, value] =>
    .ok
      (if label = "Available Spare" then
        [⟨"available_spare_ratio", d.baseLabels, .str (String.mk value.data.dropLast)⟩]
      else if label = "Available Spare Threshold" then
        [⟨"available_spare_threshold_ratio", d.baseLabels, .str (String.mk value.data.dropLast)⟩]
      else if label = "Percentage Used" then
        [⟨"percentage_used_ratio", d.baseLabels, .str (String.mk value.data.dropLast)⟩]
      else if label = "Power Cycle" then
        [⟨"power_cycles_total", d.baseLabels, .str value⟩]
      else if label = "Power On Hours" then
        [⟨"power_on_hours_total", d.baseLabels, .str (pyReplace value (",") (""))⟩]
      else if label = "Temperature" then
        [⟨"temperature_celcius", d.baseLabels, .str (pyReplace value (" Celsius") (""))⟩]
      else if label = "Unsafe Shutdowns" then
        [⟨"unsafe_shutdowns_total", d.baseLabels, .str value⟩]
      else if label = "Media and Data Integrity Errors" then
        [⟨"media_errors_total", d.baseLabels, .str value⟩]
      else if label = "Error Information Log Entries" then
        [⟨"num_err_log_entries_total", d.baseLabels, .str value⟩]
      else if label = "Warning Comp. Temperature Time" then
        [⟨"warning_temperature_time_total", d.baseLabels, .str value⟩]
      else if label = "Critical Comp. Temperature Time" then
        [⟨"critical_temperature_time_total", d.baseLabels, .str value⟩]
      else [])
  | _ => .error ()

/-- The per-line loop of collect_nvme_metrics. -/
def nvmeLoop (d : Device) : List String → Except Unit (List Metric)
  | [] => .ok []
  | l :: rest =>
    match nvmeLine d l with
    | .error e => .error e
    | .ok ms =>
      match nvmeLoop d rest with
      | .error e => .error e
      | .ok tail => .ok (ms ++ tail)

/-- The lines processed by collect_nvme_metrics: collapse whitespace, strip,
split on newlines, drop the first 6 lines (the lines themselves are not
stripped). -/
def nvmeLines (out : String) : List String :=
  (pyLines (pyStrip (collapseWs out))).drop 6

/-- collect_nvme_metrics, given the stdout of the `--attributes` invocation. -/
def collect_nvme_metrics (d : Device) (out : String) : Except Unit (List Metric) :=
  nvmeLoop d (nvmeLines out)

/-! ## The orchestrator

`Oracle` models the smartctl subprocess: an argument list is mapped to the
pair (exit status is zero, captured stdout).  A call with `check=True` whose
exit status is non-zero raises CalledProcessError; except inside
device_is_active, that exception aborts the whole collection (`.error`).
Calls with `check=False` use only the stdout component. -/

def Oracle : Type := List String → Bool × String

def standbyCmd (d : Device) : List String := ["--nocheck", "standby"] ++ d.select

def infoCmd (d : Device) : List String := ["--info"] ++ d.select

def healthCmd (d : Device) : List String := ["--health"] ++ d.select

def attrsCmd (d : Device) : List String := ["--attributes"] ++ d.select

def xerrorCmd (d : Device) : List String := ["-l", "xerror,1"] ++ d.select

/-- device_is_active: the standby probe with `check=True`, catching
CalledProcessError: the device is active iff the command exited 0. -/
def deviceIsActive (o : Oracle) (d : Device) : Bool := (o (standbyCmd d)).1

/-- collect_device_health_self_assessment (health query tolerates failure). -/
def healthMetric (o : Oracle) (d : Device) : Metric :=
  ⟨"device_smart_healthy", d.baseLabels, .bool (selfTestSearch (o (healthCmd d)).2)⟩

/-- The ATA branch of the per-device loop (`device.type.startswith('sat')`):
the `--attributes` call is checked, the parsed attribute metrics are yielded,
then the tolerated error-log query yields device_errors.  Returns the yielded
metrics together with the smartctl invocations performed. -/
def satBranch (o : Oracle) (d : Device) :
    Except Unit (List Metric × List (List String)) :=
  if pyStartsWith d.typ ("sat") then
    let r := o (attrsCmd d)
    if !r.1 then .error ()
    else
      match collect_ata_metrics d r.2 with
      | .error e => .error e
      | .ok ms =>
        .ok (ms ++ [ataErrorCountMetric d (o (xerrorCmd d)).2],
             [attrsCmd d, xerrorCmd d])
  else .ok ([], [])

/-- The NVMe branch of the per-device loop (`device.type == 'nvme'`). -/
def nvmeBranch (o : Oracle) (d : Device) :
    Except Unit (List Metric × List (List String)) :=
  if d.typ = "nvme" then
    let r := o (attrsCmd d)
    if !r.1 then .error ()
    else
      match collect_nvme_metrics d r.2 with
      | .error e => .error e
      | .ok ms => .ok (ms, [attrsCmd d])
  else .ok ([], [])

/-- device_smart_capabilities with its query: NVMe devices are declared capable
without any invocation; otherwise a fresh checked `--info` call is parsed. -/
def capsQuery (o : Oracle) (d : Device) :
    Except Unit ((Bool × Bool) × List (List String)) :=
  if d.typ = "nvme" then .ok ((true, true), [])
  else
    let r := o (infoCmd d)
    if !r.1 then .error ()
    else .ok (smartCapabilities r.2, [infoCmd d])

/-- The body of the device loop in collect_disks_smart_metrics for one device:
the metrics yielded for that device, paired with the smartctl invocations
performed for it, or `.error` when an uncaught exception escapes (aborting the
whole collection). -/
def runDevice (o : Oracle) (wakeupDisks : Bool) (now : Nat) (d : Device) :
    Except Unit (List Metric × List (List String)) :=
  let runM : Metric := ⟨"smartctl_run", d.baseLabels, .nat now⟩
  let isActive := deviceIsActive o d
  let activeM : Metric := ⟨"device_active", d.baseLabels, .bool isActive⟩
  if !isActive && !wakeupDisks then
    .ok ([runM, activeM], [standbyCmd d])
  else
    let ri := o (infoCmd d)
    if !ri.1 then .error ()
    else
      let infoM := deviceInfoMetric d ri.2
      match capsQuery o d with
      | .error e => .error e
      | .ok ((avail, enabled), capsLog) =>
        let availM : Metric := ⟨"device_smart_available", d.baseLabels, .bool avail⟩
        let enabledM : Metric := ⟨"device_smart_enabled", d.baseLabels, .bool enabled⟩
        if !avail then
          .ok ([runM, activeM, infoM, availM, enabledM],
               [standbyCmd d, infoCmd d] ++ capsLog)
        else
          let hM := healthMetric o d
          match satBranch o d with
          | .error e => .error e
          | .ok (satMs, satLog) =>
            match nvmeBranch o d with
            | .error e => .error e
            | .ok (nvmeMs, nvmeLog) =>
              .ok ([runM, activeM, infoM, availM, enabledM, hM] ++ satMs ++ nvmeMs,
                   [standbyCmd d, infoCmd d] ++ capsLog ++ [healthCmd d]
                     ++ satLog ++ nvmeLog)

/-- collect_disks_smart_metrics over the discovered devices: the timestamp is
computed once; each device contributes its metrics in order; an uncaught
exception aborts everything (main's `list(...)` then never completes). -/
def collectDisks (o : Oracle) (wakeupDisks : Bool) (now : Nat) :
    List Device → Except Unit (List Metric)
  | [] => .ok []
  | d :: rest =>
    match runDevice o wakeupDisks now d with
    | .error e => .error e
    | .ok (ms, _) =>
      match collectDisks o wakeupDisks now rest with
      | .error e => .error e
      | .ok tail => .ok (ms ++ tail)

/-! ## Emission (main) -/

/-- A line printed by main's metric loop: the two preamble comment lines of
metric_print_meta, or one sample line of metric_print. -/
inductive OutLine where
  | help (name : String)
  | typ (name : String)
  | sample (m : Metric)
deriving DecidableEq, Repr

/-- Insert a metric into an already-sorted (by name) list, before the first
metric of greater-or-equal name.  Folding the run's metrics right-to-left with
this insertion computes the unique stable sort by name, which is what Python's
`metrics.sort(key=lambda i: i.name)` performs. -/
def insertByName (m : Metric) : List Metric → List Metric
  | [] => [m]
  | x :: xs => if x.name < m.name then x :: insertByName m xs else m :: x :: xs

/-- `metrics.sort(key=lambda i: i.name)`: stable sort by metric name. -/
def sortByName : List Metric → List Metric
  | [] => []
  | m :: ms => insertByName m (sortByName ms)

/-- main's printing loop over the sorted metrics, threading previous_name:
the HELP/TYPE preamble is printed whenever the name differs from the previous
metric's name, then the sample line. -/
def emitLoop : Option String → List Metric → List OutLine
  | _, [] => []
  | prev, m :: ms =>
    (if prev = some m.name then [] else [.help m.name, .typ m.name])
      ++ (.sample m :: emitLoop (some m.name) ms)

/-- The full emission of one run's metrics by main (after the version metric):
stable sort by name, then the print loop started with `previous_name = None`. -/
def emitAll (ms : List Metric) : List OutLine := emitLoop none (sortByName ms)

/-! ## Derived notions used by the theorems -/

/-- The (lower-cased) attribute name of a token row, `entry['name'].lower()`. -/
def rowName (ts : List String) : String := pyLower (ts.getD 1 (""))

/-- The normalized raw value of a token row, when its joined raw tokens start
with a digit. -/
def rowRaw (ts : List String) : Option String :=
  leadingDigits (joinSpace (ts.drop 9))

/-- A token row that passes every per-row filter of collect_ata_metrics for
attribute name `n`: well-formed (at least the 10 columns), named `n` after
lower-casing, whitelisted, and with a parsable raw value. -/
def ataQualifies (n : String) (ts : List String) : Bool :=
  decide (10 ≤ ts.length) && rowName ts == n &&
    smart_attributes_whitelist.contains n && (rowRaw ts).isSome

/-- The four metrics that an emitted row yields. -/
def rowEmit (d : Device) (ts : List String) : List Metric :=
  rowMetrics d (rowName ts) (ts.getD 3 ("")) (ts.getD 4 (""))
    (normalizeThreshold (ts.getD 5 (""))) ((rowRaw ts).getD (""))

/-- Two metrics have the same label mapping: the same Python dicts, i.e. the
same value (or absence) at every key. -/
def LabelMapEq (a b : List (String × String)) : Prop :=
  ∀ k, a.lookup k = b.lookup k

/-- Two metrics do not conflict: if they carry the same name and the same
label mapping, they carry the same value. -/
def NoConflict (m1 m2 : Metric) : Prop :=
  m1.name = m2.name → LabelMapEq m1.labels m2.labels → m1.value = m2.value

/-- No printed line of kind `n`: neither preamble lines for metric name `n`
nor sample lines of metrics named `n`. -/
def OutForeign (n : String) : OutLine → Prop
  | .help k => k ≠ n
  | .typ k => k ≠ n
  | .sample m => m.name ≠ n

/-- The NVMe dispatch of collect_nvme_metrics, summarized as an association
list from attribute label to metric name (a read-off of the if/elif chain,
used to state theorems about it). -/
def nvmeDispatch : List (String × String) :=
  [ ("Available Spare", "available_spare_ratio"),
    ("Available Spare Threshold", "available_spare_threshold_ratio"),
    ("Percentage Used", "percentage_used_ratio"),
    ("Power Cycle", "power_cycles_total"),
    ("Power On Hours", "power_on_hours_total"),
    ("Temperature", "temperature_celcius"),
    ("Unsafe Shutdowns", "unsafe_shutdowns_total"),
    ("Media and Data Integrity Errors", "media_errors_total"),
    ("Error Information Log Entries", "num_err_log_entries_total"),
    ("Warning Comp. Temperature Time", "warning_temperature_time_total"),
    ("Critical Comp. Temperature Time", "critical_temperature_time_total") ]

/-- The label part of an NVMe attribute line, when the line splits into
exactly label and value at its single colon. -/
def nvmeLabelOf (l : String) : Option String :=
  match (splitOnChar ':' l.data).map String.mk with
  | [label, _] => some label
  | _ => none

/-- Each dispatch label occurs on at most one line of the device's NVMe
attribute block (true of actual smartctl output, where every attribute is
reported once per device). -/
def NvmeDistinctLabels (o : Oracle) (d : Device) : Prop :=
  ∀ lab ∈ nvmeDispatch.map (fun kv => kv.1),
    ((nvmeLines (o (attrsCmd d)).2).countP (fun l => nvmeLabelOf l == some lab)) ≤ 1

/-- The metric carries the device's base labels at the keys `device` and
`disk` (whatever other label keys it has). -/
def BaseAnchored (d : Device) (m : Metric) : Prop :=
  m.labels.lookup ("device") = some d.path ∧ m.labels.lookup ("disk") = some d.disk

/-! ## Lemmas about the ATA attribute loop -/

theorem ataLoop_emit_step (d : Device) (ts : List String) (rest : List (List String))
    (seen : List String) (raw : String)
    (h10 : 10 ≤ ts.length)
    (hwl : smart_attributes_whitelist.contains (rowName ts) = true)
    (hseen : seen.contains (rowName ts) = false)
    (hdig : rowRaw ts = some raw) :
    ataLoop d (ts :: rest) seen =
      match ataLoop d rest (rowName ts :: seen) with
      | .error e => .error e
      | .ok tail =>
        .ok ([ ⟨"attr_value", ("name", rowName ts) :: d.baseLabels, .str (ts.getD 3 (""))⟩,
               ⟨"attr_worst", ("name", rowName ts) :: d.baseLabels, .str (ts.getD 4 (""))⟩,
               ⟨"attr_threshold", ("name", rowName ts) :: d.baseLabels,
                 .str (normalizeThreshold (ts.getD 5 ("")))⟩,
               ⟨"attr_raw_value", ("name", rowName ts) :: d.baseLabels, .str raw⟩ ] ++ tail) := by
  have hne : ts ≠ [] := by
    intro h; subst h; simp at h10
  have h2 : ¬ ts.length < 2 := by omega
  have h9 : ¬ ts.length ≤ 9 := by omega
  rw [ataLoop, if_neg hne, if_neg h2]
  rw [rowName] at hwl hseen
  rw [rowRaw] at hdig
  simp only [hwl, Bool.not_true, Bool.false_eq_true, if_false, if_neg h9, hdig, hseen,
    Bool.false_eq_true, if_false, rowMetrics, rowName]

theorem ataLoop_skip_empty (d : Device) (rest : List (List String)) (seen : List String) :
    ataLoop d ([] :: rest) seen = ataLoop d rest seen := by
  rw [ataLoop]; simp

theorem ataLoop_skip_wl (d : Device) (ts : List String) (rest : List (List String))
    (seen : List String) (h10 : 10 ≤ ts.length)
    (hwl : smart_attributes_whitelist.contains (rowName ts) = false) :
    ataLoop d (ts :: rest) seen = ataLoop d rest seen := by
  have hne : ts ≠ [] := by intro h; subst h; simp at h10
  have h2 : ¬ ts.length < 2 := by omega
  rw [ataLoop, if_neg hne, if_neg h2]
  rw [rowName] at hwl
  simp only [hwl, Bool.not_false, if_true]

theorem ataLoop_skip_digits (d : Device) (ts : List String) (rest : List (List String))
    (seen : List String) (h10 : 10 ≤ ts.length)
    (hwl : smart_attributes_whitelist.contains (rowName ts) = true)
    (hdig : rowRaw ts = none) :
    ataLoop d (ts :: rest) seen = ataLoop d rest seen := by
  have hne : ts ≠ [] := by intro h; subst h; simp at h10
  have h2 : ¬ ts.length < 2 := by omega
  have h9 : ¬ ts.length ≤ 9 := by omega
  rw [ataLoop, if_neg hne, if_neg h2]
  rw [rowName] at hwl
  rw [rowRaw] at hdig
  simp only [hwl, Bool.not_true, Bool.false_eq_true, if_false, if_neg h9, hdig]

theorem ataLoop_skip_seen (d : Device) (ts : List String) (rest : List (List String))
    (seen : List String) (raw : String) (h10 : 10 ≤ ts.length)
    (hwl : smart_attributes_whitelist.contains (rowName ts) = true)
    (hdig : rowRaw ts = some raw)
    (hseen : seen.contains (rowName ts) = true) :
    ataLoop d (ts :: rest) seen = ataLoop d rest seen := by
  have hne : ts ≠ [] := by intro h; subst h; simp at h10
  have h2 : ¬ ts.length < 2 := by omega
  have h9 : ¬ ts.length ≤ 9 := by omega
  rw [ataLoop, if_neg hne, if_neg h2]
  rw [rowName] at hwl hseen
  rw [rowRaw] at hdig
  simp only [hwl, Bool.not_true, Bool.false_eq_true, if_false, if_neg h9, hdig, hseen, if_true]

theorem filter_rowMetrics (d : Device) (nm v w t r n : String) :
    (rowMetrics d nm v w t r).filter (fun m => m.labels.lookup ("name") == some n) =
      if nm = n then rowMetrics d nm v w t r else [] := by
  by_cases h : nm = n <;> simp [rowMetrics, List.lookup, h]

theorem filter_rowEmit (d : Device) (ts : List String) (n : String) :
    (rowEmit d ts).filter (fun m => m.labels.lookup ("name") == some n) =
      if rowName ts = n then rowEmit d ts else [] := by
  rw [rowEmit, filter_rowMetrics]

/-- The metrics of collect_ata_metrics that carry the attribute-name label `n`
are exactly the four metrics of the first row that passes all per-row filters
for `n`; when no row qualifies (or `n` was pre-seeded into `seen`), there are
none. -/
theorem ataLoop_filter_name (d : Device) (n : String) :
    ∀ (rows : List (List String)) (seen : List String),
      (∀ ts ∈ rows, 10 ≤ ts.length) →
      ∃ out, ataLoop d rows seen = .ok out ∧
        out.filter (fun m => m.labels.lookup ("name") == some n) =
          (if seen.contains n then []
           else
             match rows.find? (ataQualifies n) with
             | some ts => rowEmit d ts
             | none => [])
  | [], seen, _ => by
    refine ⟨[], rfl, ?_⟩
    simp [List.find?]
  | ts :: rest, seen, hwf => by
    have h10 : 10 ≤ ts.length := hwf ts (by simp)
    have hwfr : ∀ t ∈ rest, 10 ≤ t.length := fun t ht => hwf t (by simp [ht])
    by_cases hwl : smart_attributes_whitelist.contains (rowName ts) = true
    · cases hdig : rowRaw ts with
      | none =>
        have hq : ataQualifies n ts = false := by
          simp [ataQualifies, hdig]
        obtain ⟨out, hout, hfil⟩ := ataLoop_filter_name d n rest seen hwfr
        refine ⟨out, ?_, ?_⟩
        · rw [ataLoop_skip_digits d ts rest seen h10 hwl hdig, hout]
        · rw [hfil, List.find?]
          simp [hq]
      | some raw =>
        by_cases hseen : seen.contains (rowName ts) = true
        · -- row passed over at the seen test
          obtain ⟨out, hout, hfil⟩ := ataLoop_filter_name d n rest seen hwfr
          refine ⟨out, ?_, ?_⟩
          · rw [ataLoop_skip_seen d ts rest seen raw h10 hwl hdig hseen, hout]
          · rw [hfil]
            by_cases hn : rowName ts = n
            · have hmem : n ∈ seen := by
                subst hn
                simpa using hseen
              simp [hmem]
            · have hq : ataQualifies n ts = false := by
                simp [ataQualifies, hn]
              rw [List.find?]
              simp [hq]
        · -- row emitted
          have hseen0 : seen.contains (rowName ts) = false := by
            simpa using hseen
          obtain ⟨tail, htail, hfil⟩ :=
            ataLoop_filter_name d n rest (rowName ts :: seen) hwfr
          refine ⟨rowEmit d ts ++ tail, ?_, ?_⟩
          · rw [ataLoop_emit_step d ts rest seen raw h10 hwl hseen0 hdig, htail]
            simp [rowEmit, rowMetrics, hdig]
          · rw [List.filter_append, hfil, filter_rowEmit]
            by_cases hn : rowName ts = n
            · subst hn
              have hq : ataQualifies (rowName ts) ts = true := by
                simp [ataQualifies, h10, hdig]
                simpa using hwl
              have hnotin : ¬ (rowName ts ∈ seen) := by
                simpa using hseen
              rw [List.find?]
              simp [hq, hnotin]
            · have hq : ataQualifies n ts = false := by
                simp [ataQualifies, hn]
              have hns : ¬ n = rowName ts := fun h => hn h.symm
              rw [List.find?]
              simp [hq, hns]
              exact fun h => absurd h hn
    · -- not whitelisted
      have hwl0 : smart_attributes_whitelist.contains (rowName ts) = false := by
        simpa using hwl
      have hq : ataQualifies n ts = false := by
        by_cases hn : rowName ts = n
        · subst hn
          simp [ataQualifies, hwl0]
          intro _ hmem
          exact absurd hmem (by simpa using hwl0)
        · simp [ataQualifies, hn]
      obtain ⟨out, hout, hfil⟩ := ataLoop_filter_name d n rest seen hwfr
      refine ⟨out, ?_, ?_⟩
      · rw [ataLoop_skip_wl d ts rest seen h10 hwl0, hout]
      · rw [hfil, List.find?]
        simp [hq]

/-! ## Claims about the ATA attribute parser -/

/-- C3: a well-formed attribute-table row (at least the 10 positional columns)
whose lower-cased name is whitelisted and not yet emitted, and whose raw value
has a leading digit run, makes collect_ata_metrics emit exactly four metrics —
attr_value, attr_worst, attr_threshold, attr_raw_value, in this order — each
labelled with the same `name` label and the device's base labels
(`device`, `disk`). -/
theorem claim_c3_row_emits_exactly_four (d : Device) (ts : List String)
    (rest : List (List String)) (seen : List String) (raw : String) (tail : List Metric)
    (h10 : 10 ≤ ts.length)
    (hwl : smart_attributes_whitelist.contains (rowName ts) = true)
    (hseen : seen.contains (rowName ts) = false)
    (hdig : rowRaw ts = some raw)
    (htail : ataLoop d rest (rowName ts :: seen) = .ok tail) :
    ataLoop d (ts :: rest) seen =
      .ok ([ ⟨"attr_value", ("name", rowName ts) :: d.baseLabels, .str (ts.getD 3 (""))⟩,
             ⟨"attr_worst", ("name", rowName ts) :: d.baseLabels, .str (ts.getD 4 (""))⟩,
             ⟨"attr_threshold", ("name", rowName ts) :: d.baseLabels,
               .str (normalizeThreshold (ts.getD 5 ("")))⟩,
             ⟨"attr_raw_value", ("name", rowName ts) :: d.baseLabels, .str raw⟩ ] ++ tail) := by
  rw [ataLoop_emit_step d ts rest seen raw h10 hwl hseen hdig, htail]

/-- Witness for C3 on a concrete Temperature_Celsius row. -/
theorem claim_c3_witness :
    (10 ≤ (["194", "Temperature_Celsius", "0x0022", "036", "053", "000",
            "Old_age", "Always", "-", "36"] : List String).length ∧
     smart_attributes_whitelist.contains
       (rowName ["194", "Temperature_Celsius", "0x0022", "036", "053", "000",
                 "Old_age", "Always", "-", "36"]) = true ∧
     rowRaw ["194", "Temperature_Celsius", "0x0022", "036", "053", "000",
             "Old_age", "Always", "-", "36"] = some "36") ∧
    ataLoop ⟨"/dev/sda", "sat"⟩
        [["194", "Temperature_Celsius", "0x0022", "036", "053", "000",
          "Old_age", "Always", "-", "36"]] [] =
      .ok [ ⟨"attr_value",
              [("name", "temperature_celsius"), ("device", "/dev/sda"), ("disk", "0")],
              .str "036"⟩,
            ⟨"attr_worst",
              [("name", "temperature_celsius"), ("device", "/dev/sda"), ("disk", "0")],
              .str "053"⟩,
            ⟨"attr_threshold",
              [("name", "temperature_celsius"), ("device", "/dev/sda"), ("disk", "0")],
              .str "000"⟩,
            ⟨"attr_raw_value",
              [("name", "temperature_celsius"), ("device", "/dev/sda"), ("disk", "0")],
              .str "36"⟩ ] := by
  constructor
  · exact ⟨by decide, by decide, by decide⟩
  · have h := claim_c3_row_emits_exactly_four ⟨"/dev/sda", "sat"⟩
      ["194", "Temperature_Celsius", "0x0022", "036", "053", "000",
       "Old_age", "Always", "-", "36"] [] [] "36" []
      (by decide) (by decide) (by decide) (by decide) rfl
    simpa using h

/-- C4 counterexample: a table with two well-formed rows sharing the
whitelisted name power_on_hours in which the FIRST row fails the raw-value
digit filter.  The claim says only the first such row produces metrics and
every later one is suppressed; here the first row produces nothing and the
second row's four metrics (values 099/099/000/200) are emitted. -/
theorem claim_c4_counterexample :
    rowName ["9", "Power_On_Hours", "0x0032", "100", "100", "000",
             "Old_age", "Always", "-", "-"] =
      rowName ["9", "Power_On_Hours", "0x0032", "099", "099", "000",
               "Old_age", "Always", "-", "200"] ∧
    smart_attributes_whitelist.contains (rowName
      ["9", "Power_On_Hours", "0x0032", "100", "100", "000",
       "Old_age", "Always", "-", "-"]) = true ∧
    ataLoop ⟨"/dev/sda", "sat"⟩
        [["9", "Power_On_Hours", "0x0032", "100", "100", "000",
          "Old_age", "Always", "-", "-"],
         ["9", "Power_On_Hours", "0x0032", "099", "099", "000",
          "Old_age", "Always", "-", "200"]] [] =
      .ok [ ⟨"attr_value",
              [("name", "power_on_hours"), ("device", "/dev/sda"), ("disk", "0")],
              .str "099"⟩,
            ⟨"attr_worst",
              [("name", "power_on_hours"), ("device", "/dev/sda"), ("disk", "0")],
              .str "099"⟩,
            ⟨"attr_threshold",
              [("name", "power_on_hours"), ("device", "/dev/sda"), ("disk", "0")],
              .str "000"⟩,
            ⟨"attr_raw_value",
              [("name", "power_on_hours"), ("device", "/dev/sda"), ("disk", "0")],
              .str "200"⟩ ] := by
  refine ⟨by decide, by decide, by rfl⟩

/-- C4 (amended): within one table of well-formed rows, for every attribute
name the emitted metrics carrying that `name` label are exactly the four
metrics of the FIRST row that passes all per-row filters (whitelist and
raw-value digit run); every later row with that name is suppressed, so at most
one set of four metrics is emitted per name. -/
theorem claim_c4_amended (d : Device) (rows : List (List String)) (n : String)
    (hwf : ∀ ts ∈ rows, 10 ≤ ts.length) :
    ∃ out, ataLoop d rows [] = .ok out ∧
      out.filter (fun m => m.labels.lookup ("name") == some n) =
        (match rows.find? (ataQualifies n) with
         | some ts => rowEmit d ts
         | none => []) := by
  have h := ataLoop_filter_name d n rows [] hwf
  simpa using h

/-- Witness for the amended C4: two parsable power_on_hours rows; only the
first one's metrics appear. -/
theorem claim_c4_amended_witness :
    (∀ ts ∈ [["9", "Power_On_Hours", "0x0032", "100", "100", "000",
              "Old_age", "Always", "-", "123"],
             ["9", "Power_On_Hours", "0x0032", "099", "099", "000",
              "Old_age", "Always", "-", "200"]], 10 ≤ ts.length) ∧
    (∃ out, ataLoop ⟨"/dev/sda", "sat"⟩
        [["9", "Power_On_Hours", "0x0032", "100", "100", "000",
          "Old_age", "Always", "-", "123"],
         ["9", "Power_On_Hours", "0x0032", "099", "099", "000",
          "Old_age", "Always", "-", "200"]] [] = .ok out ∧
      out.filter (fun m => m.labels.lookup ("name") == some "power_on_hours") =
        (match List.find? (ataQualifies "power_on_hours")
            [["9", "Power_On_Hours", "0x0032", "100", "100", "000",
              "Old_age", "Always", "-", "123"],
             ["9", "Power_On_Hours", "0x0032", "099", "099", "000",
              "Old_age", "Always", "-", "200"]] with
         | some ts => rowEmit ⟨"/dev/sda", "sat"⟩ ts
         | none => [])) :=
  ⟨by decide,
   claim_c4_amended ⟨"/dev/sda", "sat"⟩
     [["9", "Power_On_Hours", "0x0032", "100", "100", "000",
       "Old_age", "Always", "-", "123"],
      ["9", "Power_On_Hours", "0x0032", "099", "099", "000",
       "Old_age", "Always", "-", "200"]] "power_on_hours" (by decide)⟩

/-- C5: the attr_raw_value emitted for a row is exactly the leading run of
decimal digits of the space-joined raw_value tokens, and a row whose joined
raw value does not start with a digit produces no metrics at all — the whole
row is dropped and the rest of the table is processed as if it were absent. -/
theorem claim_c5_raw_value_digits (d : Device) (ts : List String)
    (rest : List (List String)) (seen : List String)
    (h10 : 10 ≤ ts.length)
    (hwl : smart_attributes_whitelist.contains (rowName ts) = true)
    (hseen : seen.contains (rowName ts) = false) :
    (leadingDigits (joinSpace (ts.drop 9)) = none →
      ataLoop d (ts :: rest) seen = ataLoop d rest seen) ∧
    (∀ raw tail, leadingDigits (joinSpace (ts.drop 9)) = some raw →
      ataLoop d rest (rowName ts :: seen) = .ok tail →
      ataLoop d (ts :: rest) seen =
        .ok (rowMetrics d (rowName ts) (ts.getD 3 ("")) (ts.getD 4 (""))
          (normalizeThreshold (ts.getD 5 (""))) raw ++ tail)) := by
  constructor
  · intro hdig
    exact ataLoop_skip_digits d ts rest seen h10 hwl hdig
  · intro raw tail hdig htail
    rw [ataLoop_emit_step d ts rest seen raw h10 hwl hseen hdig, htail]
    rw [rowMetrics]

/-- Witness for C5: the raw value `36 (Min/Max 24/40)` normalizes to `36`,
and a sibling row with raw value `(Min/Max 24/40)` is dropped entirely. -/
theorem claim_c5_witness :
    (10 ≤ (["194", "Temperature_Celsius", "0x0022", "036", "053", "000",
            "Old_age", "Always", "-", "36", "(Min/Max", "24/40)"] : List String).length ∧
     leadingDigits (joinSpace (List.drop 9
       ["194", "Temperature_Celsius", "0x0022", "036", "053", "000",
        "Old_age", "Always", "-", "36", "(Min/Max", "24/40)"])) = some "36" ∧
     leadingDigits (joinSpace (List.drop 9
       ["194", "Temperature_Celsius", "0x0022", "036", "053", "000",
        "Old_age", "Always", "-", "(Min/Max", "24/40)"])) = none) ∧
    ataLoop ⟨"/dev/sda", "sat"⟩
        [["194", "Temperature_Celsius", "0x0022", "036", "053", "000",
          "Old_age", "Always", "-", "36", "(Min/Max", "24/40)"]] [] =
      .ok (rowMetrics ⟨"/dev/sda", "sat"⟩ "temperature_celsius" "036" "053" "000" "36") ∧
    ataLoop ⟨"/dev/sda", "sat"⟩
        [["194", "Temperature_Celsius", "0x0022", "036", "053", "000",
          "Old_age", "Always", "-", "(Min/Max", "24/40)"]] [] = .ok [] := by
  refine ⟨⟨by decide, by decide, by decide⟩, ?_, ?_⟩
  · have h := (claim_c5_raw_value_digits ⟨"/dev/sda", "sat"⟩
      ["194", "Temperature_Celsius", "0x0022", "036", "053", "000",
       "Old_age", "Always", "-", "36", "(Min/Max", "24/40)"] [] []
      (by decide) (by decide) (by decide)).2 "36" [] (by decide) rfl
    simpa using h
  · have h := (claim_c5_raw_value_digits ⟨"/dev/sda", "sat"⟩
      ["194", "Temperature_Celsius", "0x0022", "036", "053", "000",
       "Old_age", "Always", "-", "(Min/Max", "24/40)"] [] []
      (by decide) (by decide) (by decide)).1 (by decide)
    simpa using h

/-- C6: for an emitted row, a threshold column equal to the sentinel `---`
yields an attr_threshold metric of value `0`, while a threshold column of
`000` is passed through to that metric unchanged. -/
theorem claim_c6_threshold_normalization (d : Device) (ts : List String)
    (rest : List (List String)) (seen : List String) (raw : String) (tail : List Metric)
    (h10 : 10 ≤ ts.length)
    (hwl : smart_attributes_whitelist.contains (rowName ts) = true)
    (hseen : seen.contains (rowName ts) = false)
    (hdig : rowRaw ts = some raw)
    (htail : ataLoop d rest (rowName ts :: seen) = .ok tail) :
    (ts.getD 5 ("") = "---" →
      ataLoop d (ts :: rest) seen =
        .ok (rowMetrics d (rowName ts) (ts.getD 3 ("")) (ts.getD 4 ("")) "0" raw ++ tail)) ∧
    (ts.getD 5 ("") = "000" →
      ataLoop d (ts :: rest) seen =
        .ok (rowMetrics d (rowName ts) (ts.getD 3 ("")) (ts.getD 4 ("")) "000" raw ++ tail)) := by
  have hstep := ataLoop_emit_step d ts rest seen raw h10 hwl hseen hdig
  constructor
  · intro hthr
    rw [hstep, htail, rowMetrics]
    rw [hthr]
    rfl
  · intro hthr
    rw [hstep, htail, rowMetrics]
    rw [hthr]
    rfl

/-- Witness for C6: a `---` threshold row emits threshold 0; a `000`
threshold row emits threshold 000. -/
theorem claim_c6_witness :
    ataLoop ⟨"/dev/sda", "sat"⟩
        [["194", "Temperature_Celsius", "0x0022", "036", "053", "---",
          "Old_age", "Always", "-", "36"]] [] =
      .ok (rowMetrics ⟨"/dev/sda", "sat"⟩ "temperature_celsius" "036" "053" "0" "36") ∧
    ataLoop ⟨"/dev/sda", "sat"⟩
        [["194", "Temperature_Celsius", "0x0022", "036", "053", "000",
          "Old_age", "Always", "-", "36"]] [] =
      .ok (rowMetrics ⟨"/dev/sda", "sat"⟩ "temperature_celsius" "036" "053" "000" "36") := by
  constructor
  · have h := (claim_c6_threshold_normalization ⟨"/dev/sda", "sat"⟩
      ["194", "Temperature_Celsius", "0x0022", "036", "053", "---",
       "Old_age", "Always", "-", "36"] [] [] "36" []
      (by decide) (by decide) (by decide) (by decide) rfl).1 (by decide)
    simpa using h
  · have h := (claim_c6_threshold_normalization ⟨"/dev/sda", "sat"⟩
      ["194", "Temperature_Celsius", "0x0022", "036", "053", "000",
       "Old_age", "Always", "-", "36"] [] [] "36" []
      (by decide) (by decide) (by decide) (by decide) rfl).2 (by decide)
    simpa using h

/-- C10: the duplicate-suppression set records a name only upon emission —
when the first row bearing a whitelisted name is dropped by the raw-value
digit filter, a later well-formed row with the same name IS emitted rather
than treated as a duplicate. -/
theorem claim_c10_seen_only_on_emission (d : Device) (r1 r2 : List String)
    (rest : List (List String)) (seen : List String) (raw : String) (tail : List Metric)
    (h1 : 10 ≤ r1.length) (h2 : 10 ≤ r2.length)
    (hsame : rowName r1 = rowName r2)
    (hwl : smart_attributes_whitelist.contains (rowName r2) = true)
    (hd1 : rowRaw r1 = none) (hd2 : rowRaw r2 = some raw)
    (hseen : seen.contains (rowName r2) = false)
    (htail : ataLoop d rest (rowName r2 :: seen) = .ok tail) :
    ataLoop d (r1 :: r2 :: rest) seen = .ok (rowEmit d r2 ++ tail) := by
  rw [ataLoop_skip_digits d r1 (r2 :: rest) seen h1 (by rw [hsame]; exact hwl) hd1]
  rw [ataLoop_emit_step d r2 rest seen raw h2 hwl hseen hd2, htail]
  rw [rowEmit, hd2]
  rfl

/-- Witness for C10: a power_on_hours row with unparsable raw value followed
by one with raw value 200; the second is emitted. -/
theorem claim_c10_witness :
    (rowRaw ["9", "Power_On_Hours", "0x0032", "100", "100", "000",
             "Old_age", "Always", "-", "-"] = none ∧
     rowRaw ["9", "Power_On_Hours", "0x0032", "099", "099", "000",
             "Old_age", "Always", "-", "200"] = some "200") ∧
    ataLoop ⟨"/dev/sdb", "sat"⟩
        [["9", "Power_On_Hours", "0x0032", "100", "100", "000",
          "Old_age", "Always", "-", "-"],
         ["9", "Power_On_Hours", "0x0032", "099", "099", "000",
          "Old_age", "Always", "-", "200"]] [] =
      .ok (rowEmit ⟨"/dev/sdb", "sat"⟩
        ["9", "Power_On_Hours", "0x0032", "099", "099", "000",
         "Old_age", "Always", "-", "200"] ++ []) :=
  ⟨⟨by decide, by decide⟩,
   claim_c10_seen_only_on_emission ⟨"/dev/sdb", "sat"⟩
     ["9", "Power_On_Hours", "0x0032", "100", "100", "000",
      "Old_age", "Always", "-", "-"]
     ["9", "Power_On_Hours", "0x0032", "099", "099", "000",
      "Old_age", "Always", "-", "200"] [] [] "200" []
     (by decide) (by decide) (by decide) (by decide) (by decide) (by decide)
     (by decide) rfl⟩

/-! ## Claims about the NVMe parser and the per-device loop -/

theorem splitOnChar_no_sep (sep : Char) :
    ∀ cs : List Char, sep ∉ cs → splitOnChar sep cs = [cs]
  | [], _ => rfl
  | c :: rest, h => by
    have hc : ¬ c = sep := fun e => h (by simp [e])
    rw [splitOnChar, if_neg hc,
      splitOnChar_no_sep sep rest (fun hm => h (List.mem_cons_of_mem c hm))]

/-- C9: a line of the NVMe attribute block (after the 6-line skip) that
contains no colon makes collect_nvme_metrics raise (ValueError at the tuple
unpacking of `line.split(':')`), modelled as `.error`: the line is not skipped
and no further line is processed. -/
theorem claim_c9_colonless_line_is_error (d : Device) (l : String) (rest : List String)
    (h : ':' ∉ l.data) :
    nvmeLoop d (l :: rest) = .error () := by
  have hs : splitOnChar ':' l.data = [l.data] := splitOnChar_no_sep ':' l.data h
  rw [nvmeLoop, nvmeLine, hs]
  rfl

/-- Witness for C9: the line `no colon here` aborts NVMe parsing even when a
well-formed line follows. -/
theorem claim_c9_witness :
    (':' ∉ ("no colon here" : String).data) ∧
    nvmeLoop ⟨"/dev/nvme0", "nvme"⟩ ["no colon here", "Temperature: 32 Celsius"] =
      .error () :=
  ⟨by decide,
   claim_c9_colonless_line_is_error ⟨"/dev/nvme0", "nvme"⟩ "no colon here"
     ["Temperature: 32 Celsius"] (by decide)⟩

/-- C2: when the standby probe reports the device inactive (non-zero exit of
the `--nocheck standby` invocation) and disk wakeup was not requested, the
device loop emits exactly the two metrics smartctl_run and device_active, in
that order, and the standby probe is the only smartctl invocation performed
for the device — no info, capability, health, ATA or NVMe query happens. -/
theorem claim_c2_inactive_device_short_circuit (o : Oracle) (now : Nat) (d : Device)
    (h : (o (standbyCmd d)).1 = false) :
    runDevice o false now d =
      .ok ([⟨"smartctl_run", d.baseLabels, .nat now⟩,
            ⟨"device_active", d.baseLabels, .bool false⟩],
           [standbyCmd d]) := by
  rw [runDevice, deviceIsActive, h]
  rfl

/-- Witness for C2: a concrete device whose standby probe fails. -/
theorem claim_c2_witness :
    ((fun args => if args = standbyCmd ⟨"/dev/sdc", "sat"⟩ then (false, "")
                  else (true, "") : Oracle) (standbyCmd ⟨"/dev/sdc", "sat"⟩)).1 = false ∧
    runDevice
        (fun args => if args = standbyCmd ⟨"/dev/sdc", "sat"⟩ then (false, "")
                     else (true, ""))
        false 1700000000 ⟨"/dev/sdc", "sat"⟩ =
      .ok ([⟨"smartctl_run", [("device", "/dev/sdc"), ("disk", "0")], .nat 1700000000⟩,
            ⟨"device_active", [("device", "/dev/sdc"), ("disk", "0")], .bool false⟩],
           [["--nocheck", "standby", "--device", "sat", "/dev/sdc"]]) := by
  constructor
  · decide
  · have h := claim_c2_inactive_device_short_circuit
      (fun args => if args = standbyCmd ⟨"/dev/sdc", "sat"⟩ then (false, "")
                   else (true, ""))
      1700000000 ⟨"/dev/sdc", "sat"⟩ (by decide)
    exact h


/-! ## Claims about sorting and emission (main) -/

theorem mem_insertByName {y m : Metric} : ∀ {l : List Metric},
    y ∈ insertByName m l ↔ y = m ∨ y ∈ l
  | [] => by simp [insertByName]
  | x :: xs => by
    rw [insertByName]
    by_cases h : x.name < m.name
    · simp only [if_pos h, List.mem_cons, @mem_insertByName y m xs]
      tauto
    · simp only [if_neg h, List.mem_cons]

theorem sorted_insertByName (m : Metric) : ∀ (l : List Metric),
    l.Pairwise (fun a b => a.name ≤ b.name) →
    (insertByName m l).Pairwise (fun a b => a.name ≤ b.name)
  | [], _ => by simp [insertByName]
  | x :: xs, h => by
    rw [List.pairwise_cons] at h
    rw [insertByName]
    by_cases hx : x.name < m.name
    · rw [if_pos hx, List.pairwise_cons]
      refine ⟨?_, sorted_insertByName m xs h.2⟩
      intro y hy
      rcases mem_insertByName.mp hy with rfl | hy
      · exact le_of_lt hx
      · exact h.1 y hy
    · rw [if_neg hx, List.pairwise_cons]
      have hm : m.name ≤ x.name := le_of_not_lt hx
      refine ⟨?_, List.pairwise_cons.mpr h⟩
      intro y hy
      rcases List.mem_cons.mp hy with rfl | hy
      · exact hm
      · exact le_trans hm (h.1 y hy)

theorem sorted_sortByName : ∀ (ms : List Metric),
    (sortByName ms).Pairwise (fun a b => a.name ≤ b.name)
  | [] => by simp [sortByName]
  | m :: ms => sorted_insertByName m (sortByName ms) (sorted_sortByName ms)

theorem filter_insertByName (m : Metric) (n : String) : ∀ (l : List Metric),
    (insertByName m l).filter (fun x => x.name == n) =
      if m.name = n then m :: l.filter (fun x => x.name == n)
      else l.filter (fun x => x.name == n)
  | [] => by
    by_cases h : m.name = n <;> simp [insertByName, h]
  | x :: xs => by
    rw [insertByName]
    by_cases hx : x.name < m.name
    · rw [if_pos hx, List.filter_cons, List.filter_cons]
      by_cases hm : m.name = n
      · have hxn : ¬ x.name = n := by
          intro e; rw [e, hm] at hx; exact lt_irrefl _ hx
        simp only [filter_insertByName m n xs, hm, if_pos hm, hxn]
        simp [hxn]
      · simp [filter_insertByName m n xs, hm]
    · rw [if_neg hx, List.filter_cons]
      by_cases hm : m.name = n <;> simp [hm, List.filter_cons]

theorem filter_sortByName (n : String) : ∀ (ms : List Metric),
    (sortByName ms).filter (fun x => x.name == n) = ms.filter (fun x => x.name == n)
  | [] => rfl
  | m :: ms => by
    rw [sortByName, filter_insertByName m n (sortByName ms), filter_sortByName n ms,
      List.filter_cons]
    by_cases hm : m.name = n <;> simp [hm]

theorem mem_sortByName {y : Metric} : ∀ {ms : List Metric}, y ∈ sortByName ms ↔ y ∈ ms
  | [] => Iff.rfl
  | m :: ms => by
    rw [sortByName, mem_insertByName, @mem_sortByName y ms, List.mem_cons]

theorem emitLoop_run (n : String) : ∀ (run rest : List Metric),
    (∀ x ∈ run, x.name = n) →
    emitLoop (some n) (run ++ rest) = run.map OutLine.sample ++ emitLoop (some n) rest
  | [], rest, _ => rfl
  | x :: run, rest, h => by
    have hx : x.name = n := h x (by simp)
    rw [List.cons_append, emitLoop, hx, if_pos rfl]
    rw [emitLoop_run n run rest (fun y hy => h y (by simp [hy]))]
    simp

theorem emitLoop_foreign (n : String) : ∀ (l : List Metric) (prev : Option String),
    n ∉ l.map Metric.name →
    ∀ o ∈ emitLoop prev l, OutForeign n o
  | [], _, _ => by simp [emitLoop]
  | x :: xs, prev, h => by
    have hxn : x.name ≠ n := by
      intro e
      exact h (by simp [← e])
    have hr := emitLoop_foreign n xs (some x.name) (fun hm => h (by simp at hm ⊢; tauto))
    intro o ho
    rw [emitLoop] at ho
    by_cases hp : prev = some x.name
    · rw [if_pos hp] at ho
      rcases List.mem_cons.mp (by simpa using ho) with rfl | ho2
      · exact hxn
      · exact hr o ho2
    · rw [if_neg hp] at ho
      simp only [List.append_assoc, List.mem_append, List.mem_cons] at ho
      rcases ho with (rfl | rfl | h0) | rfl | ho2
      · exact hxn
      · exact hxn
      · simp at h0
      · exact hxn
      · exact hr o ho2

theorem dropWhile_name_ne (n : String) : ∀ (l : List Metric),
    l.Pairwise (fun a b => a.name ≤ b.name) →
    (∀ y ∈ l, n ≤ y.name) →
    ∀ x ∈ l.dropWhile (fun m => m.name == n), x.name ≠ n
  | [], _, _ => by simp
  | a :: tl, hs, hge => by
    rw [List.pairwise_cons] at hs
    rw [List.dropWhile_cons]
    by_cases ha : a.name = n
    · rw [if_pos (by simp [ha])]
      exact dropWhile_name_ne n tl hs.2 (fun y hy => hge y (by simp [hy]))
    · rw [if_neg (by simp [ha])]
      intro x hx
      rcases List.mem_cons.mp hx with rfl | hx
      · exact ha
      · intro he
        have h1 : n ≤ a.name := hge a (by simp)
        have h2 : a.name ≤ x.name := hs.1 x hx
        rw [he] at h2
        exact ha (le_antisymm h2 h1)

theorem emitLoop_block (n : String) : ∀ (s : List Metric) (prev : Option String),
    s.Pairwise (fun a b => a.name ≤ b.name) →
    n ∈ s.map Metric.name →
    prev ≠ some n →
    ∃ pre post, emitLoop prev s =
        pre ++ OutLine.help n :: OutLine.typ n ::
          (s.filter (fun m => m.name == n)).map OutLine.sample ++ post ∧
      (∀ o ∈ pre, OutForeign n o) ∧ (∀ o ∈ post, OutForeign n o)
  | [], _, _, hmem, _ => by simp at hmem
  | m :: ms, prev, hs, hmem, hprev => by
    rw [List.pairwise_cons] at hs
    by_cases hm : m.name = n
    · -- the block starts here
      have hprev' : ¬ prev = some m.name := by rw [hm]; exact hprev
      set run := ms.takeWhile (fun x => x.name == n) with hrun
      set rest := ms.dropWhile (fun x => x.name == n) with hrest
      have hsplit : run ++ rest = ms := List.takeWhile_append_dropWhile _ _
      have hrunall : ∀ x ∈ run, x.name = n := by
        intro x hx
        have := List.mem_takeWhile_imp hx
        simpa using this
      have hrestne : ∀ x ∈ rest, x.name ≠ n := by
        refine dropWhile_name_ne n ms hs.2 ?_
        intro y hy
        rw [← hm]
        exact hs.1 y hy
      have hrestmap : n ∉ rest.map Metric.name := by
        intro hn
        rcases List.mem_map.mp hn with ⟨x, hx, he⟩
        exact hrestne x hx he
      have hloop : emitLoop prev (m :: ms) =
          (OutLine.help n :: OutLine.typ n :: OutLine.sample m ::
            run.map OutLine.sample) ++ emitLoop (some n) rest := by
        rw [emitLoop, if_neg hprev', ← hsplit, hm]
        rw [emitLoop_run n run rest hrunall]
        simp
      have hfil : (m :: ms).filter (fun x => x.name == n) = m :: run := by
        rw [List.filter_cons, if_pos (by simp [hm]), ← hsplit, List.filter_append]
        rw [List.filter_eq_self.mpr (fun a ha => by simp [hrunall a ha])]
        rw [List.filter_eq_nil_iff.mpr (fun a ha => by simp [hrestne a ha])]
        simp
      refine ⟨[], emitLoop (some n) rest, ?_, by simp, ?_⟩
      · rw [hloop, hfil]
        simp
      · exact emitLoop_foreign n rest (some n) hrestmap
    · -- the block starts later
      have hmem' : n ∈ ms.map Metric.name := by
        rcases List.mem_map.mp hmem with ⟨x, hx, he⟩
        rcases List.mem_cons.mp hx with rfl | hx
        · exact absurd he hm
        · exact List.mem_map.mpr ⟨x, hx, he⟩
      obtain ⟨pre, post, heq, hpre, hpost⟩ :=
        emitLoop_block n ms (some m.name) hs.2 hmem' (by simp [hm])
      have hfil : (m :: ms).filter (fun x => x.name == n) =
          ms.filter (fun x => x.name == n) := by
        rw [List.filter_cons, if_neg (by simp [hm])]
      refine ⟨(if prev = some m.name then [] else
          [OutLine.help m.name, OutLine.typ m.name]) ++ [OutLine.sample m] ++ pre,
        post, ?_, ?_, hpost⟩
      · rw [emitLoop, heq, hfil]
        by_cases hp : prev = some m.name <;> simp [hp]
      · intro o ho
        simp only [List.mem_append, List.mem_cons] at ho
        rcases ho with (ho | ho) | ho
        · split at ho
          · simp at ho
          · rcases (by simpa using ho : o = OutLine.help m.name ∨ o = OutLine.typ m.name)
              with rfl | rfl
            · exact hm
            · exact hm
        · rcases (by simpa using ho : o = OutLine.sample m) with rfl
          exact hm
        · exact hpre o ho

/-- C8: main sorts the collected metrics stably by name (the ordering is by
metric name and, for equal names, the original relative order is kept — the
filter by any name is unchanged), and the printing loop emits the HELP/TYPE
preamble of each distinct metric name exactly once, immediately before the
block of all sample lines of that name. -/
theorem claim_c8_sorted_stable_unique_preamble (ms : List Metric) :
    (sortByName ms).Pairwise (fun a b => a.name ≤ b.name) ∧
    (∀ n, (sortByName ms).filter (fun m => m.name == n) =
      ms.filter (fun m => m.name == n)) ∧
    (∀ n, n ∈ ms.map Metric.name →
      ∃ pre post, emitAll ms =
          pre ++ OutLine.help n :: OutLine.typ n ::
            ((sortByName ms).filter (fun m => m.name == n)).map OutLine.sample ++ post ∧
        (∀ o ∈ pre, OutForeign n o) ∧ (∀ o ∈ post, OutForeign n o)) := by
  refine ⟨sorted_sortByName ms, fun n => filter_sortByName n ms, ?_⟩
  intro n hn
  have hn2 : n ∈ (sortByName ms).map Metric.name := by
    rcases List.mem_map.mp hn with ⟨x, hx, he⟩
    exact List.mem_map.mpr ⟨x, mem_sortByName.mpr hx, he⟩
  exact emitLoop_block n (sortByName ms) none (sorted_sortByName ms) hn2 (by simp)

theorem lt_ab : (("a" : String) < "b") := by
  rw [String.lt_iff_toList_lt]
  decide

theorem nlt_ba : ¬ (("b" : String) < "a") := by
  rw [String.lt_iff_toList_lt]
  intro h
  exact absurd h (by decide)

theorem nlt_bb : ¬ (("b" : String) < "b") := by
  rw [String.lt_iff_toList_lt]
  intro h
  exact absurd h (by decide)

theorem sortByName_example :
    sortByName [⟨"b", [], .nat 1⟩, ⟨"a", [], .nat 2⟩, ⟨"b", [], .nat 3⟩] =
      [⟨"a", [], .nat 2⟩, ⟨"b", [], .nat 1⟩, ⟨"b", [], .nat 3⟩] := by
  have e1 : sortByName [(⟨"b", [], .nat 3⟩ : Metric)] = [⟨"b", [], .nat 3⟩] := rfl
  rw [sortByName, sortByName, e1]
  rw [insertByName, if_neg nlt_ba]
  rw [insertByName, if_pos lt_ab]
  rw [insertByName, if_neg nlt_bb]

theorem emitAll_example :
    emitAll [⟨"b", [], .nat 1⟩, ⟨"a", [], .nat 2⟩, ⟨"b", [], .nat 3⟩] =
      [OutLine.help "a", OutLine.typ "a", OutLine.sample ⟨"a", [], .nat 2⟩,
       OutLine.help "b", OutLine.typ "b", OutLine.sample ⟨"b", [], .nat 1⟩,
       OutLine.sample ⟨"b", [], .nat 3⟩] := by
  rw [emitAll, sortByName_example]
  rfl

/-- Witness for C8 on a three-metric run with a duplicated name: the sorted
output keeps the two b-metrics in original order and each preamble appears
once, before its name block. -/
theorem claim_c8_witness :
    ((sortByName [⟨"b", [], .nat 1⟩, ⟨"a", [], .nat 2⟩, ⟨"b", [], .nat 3⟩]).Pairwise
        (fun a b => a.name ≤ b.name) ∧
     (∀ n, (sortByName [⟨"b", [], .nat 1⟩, ⟨"a", [], .nat 2⟩, ⟨"b", [], .nat 3⟩]).filter
          (fun m => m.name == n) =
        ([⟨"b", [], .nat 1⟩, ⟨"a", [], .nat 2⟩, ⟨"b", [], .nat 3⟩] : List Metric).filter
          (fun m => m.name == n)) ∧
     (∀ n, n ∈ ([⟨"b", [], .nat 1⟩, ⟨"a", [], .nat 2⟩,
                 ⟨"b", [], .nat 3⟩] : List Metric).map Metric.name →
       ∃ pre post, emitAll [⟨"b", [], .nat 1⟩, ⟨"a", [], .nat 2⟩, ⟨"b", [], .nat 3⟩] =
           pre ++ OutLine.help n :: OutLine.typ n ::
             ((sortByName [⟨"b", [], .nat 1⟩, ⟨"a", [], .nat 2⟩,
               ⟨"b", [], .nat 3⟩]).filter (fun m => m.name == n)).map OutLine.sample
             ++ post ∧
         (∀ o ∈ pre, OutForeign n o) ∧ (∀ o ∈ post, OutForeign n o))) ∧
    emitAll [⟨"b", [], .nat 1⟩, ⟨"a", [], .nat 2⟩, ⟨"b", [], .nat 3⟩] =
      [OutLine.help "a", OutLine.typ "a", OutLine.sample ⟨"a", [], .nat 2⟩,
       OutLine.help "b", OutLine.typ "b", OutLine.sample ⟨"b", [], .nat 1⟩,
       OutLine.sample ⟨"b", [], .nat 3⟩] :=
  ⟨claim_c8_sorted_stable_unique_preamble
     [⟨"b", [], .nat 1⟩, ⟨"a", [], .nat 2⟩, ⟨"b", [], .nat 3⟩], emitAll_example⟩


/-! ## Claims about the device-info line parser -/

theorem colonIdx_none : ∀ (cs : List Char), ':' ∉ cs → colonIdx cs = none
  | [], _ => rfl
  | c :: rest, h => by
    have hc : ¬ c = ':' := fun e => h (by simp [e])
    rw [colonIdx, if_neg hc, colonIdx_none rest (fun hm => h (List.mem_cons_of_mem c hm))]
    rfl

theorem colonIdx_append : ∀ (key rest : List Char), ':' ∉ key →
    colonIdx (key ++ ':' :: rest) = some key.length
  | [], rest, _ => by simp [colonIdx]
  | c :: key, rest, h => by
    have hc : ¬ c = ':' := fun e => h (by simp [e])
    rw [List.cons_append, colonIdx, if_neg hc,
      colonIdx_append key rest (fun hm => h (List.mem_cons_of_mem c hm))]
    simp

theorem getD_append_left {l1 l2 : List Char} {i : Nat} (h : i < l1.length) :
    (l1 ++ l2).getD i 'x' = l1.getD i 'x' := by
  rw [List.getD_eq_getElem?_getD, List.getD_eq_getElem?_getD, List.getElem?_append_left h]

theorem dropWhile_space_value (value : List Char)
    (hv : value.head?.all (fun c => !isPySpace c) = true) :
    (' ' :: value).dropWhile isPySpace = value := by
  rw [List.dropWhile_cons, if_pos (by decide)]
  cases value with
  | nil => rfl
  | cons c v =>
    rw [List.dropWhile_cons, if_neg]
    simp only [Option.all_some, List.head?_cons] at hv
    simpa using hv

/-- C7 (amended): the device-info line grammar accepted by device_info_re is
`key` followed by a colon, or by one whitespace character plus `is` plus a
colon, then optional whitespace, then the value; the key is the shortest
prefix ending at that separator (a key whose last three characters look like
whitespace+`is` right before the colon would instead end before them, which
the first hypothesis excludes).  A line using ` is ` WITHOUT any colon is not
parsed at all — the original claim's reading that a colon-less ` is ` line is
accepted is refuted by the counterexample. -/
theorem claim_c7_amended (key value : List Char)
    (hk : key ≠ [])
    (hc : ':' ∉ key)
    (hv : value.head?.all (fun c => !isPySpace c) = true) :
    ((4 ≤ key.length && isPySpace (key.getD (key.length - 3) 'x') &&
        key.getD (key.length - 2) 'x' = 'i' && key.getD (key.length - 1) 'x' = 's') = false →
      deviceInfoMatch (String.mk (key ++ ':' :: ' ' :: value)) =
        some (String.mk key, String.mk value)) ∧
    (deviceInfoMatch (String.mk (key ++ ' ' :: 'i' :: 's' :: ':' :: ' ' :: value)) =
      some (String.mk key, String.mk value)) ∧
    (':' ∉ value →
      deviceInfoMatch (String.mk (key ++ ' ' :: 'i' :: 's' :: ' ' :: value)) = none) := by
  have hklen : key.length ≠ 0 := fun e => hk (List.length_eq_zero.mp e)
  refine ⟨?_, ?_, ?_⟩
  · -- plain colon separator
    intro hkis
    have hcol : colonIdx (key ++ ':' :: ' ' :: value) = some key.length :=
      colonIdx_append key (' ' :: value) hc
    rw [deviceInfoMatch]
    rw [show (String.mk (key ++ ':' :: ' ' :: value)).data = key ++ ':' :: ' ' :: value from rfl]
    rw [hcol]
    dsimp only
    rw [if_neg hklen]
    have hcond : (decide (4 ≤ key.length) &&
        isPySpace ((key ++ ':' :: ' ' :: value).getD (key.length - 3) 'x') &&
        decide ((key ++ ':' :: ' ' :: value).getD (key.length - 2) 'x' = 'i') &&
        decide ((key ++ ':' :: ' ' :: value).getD (key.length - 1) 'x' = 's')) = false := by
      by_cases h4 : 4 ≤ key.length
      · rw [getD_append_left (show key.length - 3 < key.length by omega),
          getD_append_left (show key.length - 2 < key.length by omega),
          getD_append_left (show key.length - 1 < key.length by omega)]
        exact hkis
      · simp [h4]
    rw [hcond]
    have hdrop : List.drop (key.length + 1) (key ++ ':' :: ' ' :: value) = ' ' :: value := by
      rw [show key ++ ':' :: ' ' :: value = (key ++ [':']) ++ ' ' :: value by simp,
        show key.length + 1 = (key ++ [':']).length by simp, List.drop_left]
    simp only [Bool.false_eq_true, if_false]
    rw [List.take_left, hdrop, dropWhile_space_value value hv]
  · -- the ` is:` separator
    have hc3 : ':' ∉ key ++ [' ', 'i', 's'] := by
      intro hm
      rcases List.mem_append.mp hm with hm | hm
      · exact hc hm
      · simp at hm
    have hcol : colonIdx (key ++ ' ' :: 'i' :: 's' :: ':' :: ' ' :: value) =
        some (key.length + 3) := by
      rw [show key ++ ' ' :: 'i' :: 's' :: ':' :: ' ' :: value =
          (key ++ [' ', 'i', 's']) ++ ':' :: ' ' :: value by simp]
      rw [colonIdx_append (key ++ [' ', 'i', 's']) (' ' :: value) hc3]
      simp
    rw [deviceInfoMatch]
    rw [show (String.mk (key ++ ' ' :: 'i' :: 's' :: ':' :: ' ' :: value)).data =
        key ++ ' ' :: 'i' :: 's' :: ':' :: ' ' :: value from rfl]
    rw [hcol]
    dsimp only
    rw [if_neg (show ¬ key.length + 3 = 0 by omega)]
    have hlen1 : 1 ≤ key.length := by
      cases key with
      | nil => exact absurd rfl hk
      | cons a b => simp
    have hsplit : key ++ ' ' :: 'i' :: 's' :: ':' :: ' ' :: value =
        (key ++ [' ', 'i', 's']) ++ ':' :: ' ' :: value := by simp
    have hg : ∀ j : Nat, j < 3 →
        (key ++ ' ' :: 'i' :: 's' :: ':' :: ' ' :: value).getD (key.length + j) 'x' =
          ([' ', 'i', 's'].getD j 'x') := by
      intro j hj
      rw [hsplit, getD_append_left (by simp; omega)]
      rw [List.getD_eq_getElem?_getD, List.getD_eq_getElem?_getD,
        List.getElem?_append_right (by omega),
        show key.length + j - key.length = j from by omega]
    have hcond : (decide (4 ≤ key.length + 3) &&
        isPySpace ((key ++ ' ' :: 'i' :: 's' :: ':' :: ' ' :: value).getD (key.length + 3 - 3) 'x') &&
        decide ((key ++ ' ' :: 'i' :: 's' :: ':' :: ' ' :: value).getD (key.length + 3 - 2) 'x' = 'i') &&
        decide ((key ++ ' ' :: 'i' :: 's' :: ':' :: ' ' :: value).getD (key.length + 3 - 1) 'x' = 's')) = true := by
      rw [show key.length + 3 - 3 = key.length + 0 by omega,
        show key.length + 3 - 2 = key.length + 1 by omega,
        show key.length + 3 - 1 = key.length + 2 by omega,
        hg 0 (by omega), hg 1 (by omega), hg 2 (by omega)]
      simp [isPySpace]
      omega
    rw [hcond]
    have hdrop : List.drop (key.length + 3 + 1) (key ++ ' ' :: 'i' :: 's' :: ':' :: ' ' :: value) =
        ' ' :: value := by
      rw [show key ++ ' ' :: 'i' :: 's' :: ':' :: ' ' :: value =
          (key ++ [' ', 'i', 's', ':']) ++ ' ' :: value by simp,
        show key.length + 3 + 1 = (key ++ [' ', 'i', 's', ':']).length by simp, List.drop_left]
    have htake : List.take (key.length + 3 - 3) (key ++ ' ' :: 'i' :: 's' :: ':' :: ' ' :: value) =
        key := by
      rw [show key.length + 3 - 3 = key.length by omega]
      exact List.take_left key _
    simp only [if_pos]
    rw [htake, hdrop, dropWhile_space_value value hv]
  · -- ` is ` with no colon anywhere is not matched
    intro hcv
    have hnone : colonIdx (key ++ ' ' :: 'i' :: 's' :: ' ' :: value) = none := by
      apply colonIdx_none
      intro hm
      rcases List.mem_append.mp hm with hm | hm
      · exact hc hm
      · rcases List.mem_cons.mp hm with hm1 | hm
        · cases hm1
        · rcases List.mem_cons.mp hm with hm1 | hm
          · cases hm1
          · rcases List.mem_cons.mp hm with hm1 | hm
            · cases hm1
            · rcases List.mem_cons.mp hm with hm1 | hm
              · cases hm1
              · exact hcv hm
    rw [deviceInfoMatch]
    rw [show (String.mk (key ++ ' ' :: 'i' :: 's' :: ' ' :: value)).data =
        key ++ ' ' :: 'i' :: 's' :: ' ' :: value from rfl]
    rw [hnone]

/-- C7 counterexample: the claim says a line of the form `key is value`
with no colon is parsed; device_info_re requires a colon in the separator, so
`Firmware Version is 1.0` yields no (key, value) pair. -/
theorem claim_c7_counterexample :
    deviceInfoMatch ("Firmware Version is 1.0") = none := by decide

/-- Witness for the amended C7: a `key: value` line, a `key is: value` line,
and the non-parsed colon-less ` is ` line, all concrete. -/
theorem claim_c7_witness :
    (("Model Family").data ≠ [] ∧ ':' ∉ ("Model Family").data) ∧
    deviceInfoMatch ("Model Family: Seagate") = some ("Model Family", "Seagate") ∧
    deviceInfoMatch ("SMART support is: Enabled") = some ("SMART support", "Enabled") ∧
    deviceInfoMatch ("Capacity is 500GB") = none := by
  have h1 := claim_c7_amended ("Model Family").data ("Seagate").data
    (by decide) (by decide) (by decide)
  have h2 := claim_c7_amended ("SMART support").data ("Enabled").data
    (by decide) (by decide) (by decide)
  have h3 := claim_c7_amended ("Capacity").data ("500GB").data
    (by decide) (by decide) (by decide)
  refine ⟨⟨by decide, by decide⟩, ?_, ?_, ?_⟩
  · exact h1.1 (by decide)
  · exact h2.2.1
  · exact h3.2.2 (by decide)


/-! ## Claims about the orchestrator (C1) -/

theorem lookup_mem : ∀ (l : List (String × String)) (a s : String),
    l.lookup a = some s → (a, s) ∈ l
  | [], _, _, h => by simp [List.lookup] at h
  | (k, v) :: rest, a, s, h => by
    rw [List.lookup] at h
    cases hak : a == k with
    | true =>
      rw [hak] at h
      simp only [Option.some.injEq] at h
      subst h
      have hk : a = k := by simpa using hak
      simp [hk]
    | false =>
      rw [hak] at h
      exact List.mem_cons_of_mem _ (lookup_mem rest a s h)

theorem nvmeLine_shape (d : Device) (l : String) : ∀ (ms : List Metric),
    nvmeLine d l = .ok ms →
    ms.map Metric.name =
      ((nvmeLabelOf l).bind (fun lab => nvmeDispatch.lookup lab)).toList ∧
    ∀ m ∈ ms, m.labels = d.baseLabels := by
  rw [nvmeLine, nvmeLabelOf]
  cases (splitOnChar ':' l.data).map String.mk with
  | nil => intro ms h; cases h
  | cons x xs =>
    cases xs with
    | nil => intro ms h; cases h
    | cons y ys =>
      cases ys with
      | nil =>
        intro ms h
        cases h
        by_cases h1 : x = "Available Spare"
        · rw [if_pos h1]
          subst h1
          exact ⟨rfl, by simp⟩
        rw [if_neg h1]
        by_cases h2 : x = "Available Spare Threshold"
        · rw [if_pos h2]
          subst h2
          exact ⟨rfl, by simp⟩
        rw [if_neg h2]
        by_cases h3 : x = "Percentage Used"
        · rw [if_pos h3]
          subst h3
          exact ⟨rfl, by simp⟩
        rw [if_neg h3]
        by_cases h4 : x = "Power Cycle"
        · rw [if_pos h4]
          subst h4
          exact ⟨rfl, by simp⟩
        rw [if_neg h4]
        by_cases h5 : x = "Power On Hours"
        · rw [if_pos h5]
          subst h5
          exact ⟨rfl, by simp⟩
        rw [if_neg h5]
        by_cases h6 : x = "Temperature"
        · rw [if_pos h6]
          subst h6
          exact ⟨rfl, by simp⟩
        rw [if_neg h6]
        by_cases h7 : x = "Unsafe Shutdowns"
        · rw [if_pos h7]
          subst h7
          exact ⟨rfl, by simp⟩
        rw [if_neg h7]
        by_cases h8 : x = "Media and Data Integrity Errors"
        · rw [if_pos h8]
          subst h8
          exact ⟨rfl, by simp⟩
        rw [if_neg h8]
        by_cases h9 : x = "Error Information Log Entries"
        · rw [if_pos h9]
          subst h9
          exact ⟨rfl, by simp⟩
        rw [if_neg h9]
        by_cases h10 : x = "Warning Comp. Temperature Time"
        · rw [if_pos h10]
          subst h10
          exact ⟨rfl, by simp⟩
        rw [if_neg h10]
        by_cases h11 : x = "Critical Comp. Temperature Time"
        · rw [if_pos h11]
          subst h11
          exact ⟨rfl, by simp⟩
        rw [if_neg h11]
        have hlk : List.lookup x nvmeDispatch = none := by
          rw [nvmeDispatch, List.lookup, List.lookup, List.lookup, List.lookup, List.lookup, List.lookup, List.lookup, List.lookup, List.lookup, List.lookup, List.lookup]
          rw [show (x == "Available Spare") = false from by simp [h1],
            show (x == "Available Spare Threshold") = false from by simp [h2],
            show (x == "Percentage Used") = false from by simp [h3],
            show (x == "Power Cycle") = false from by simp [h4],
            show (x == "Power On Hours") = false from by simp [h5],
            show (x == "Temperature") = false from by simp [h6],
            show (x == "Unsafe Shutdowns") = false from by simp [h7],
            show (x == "Media and Data Integrity Errors") = false from by simp [h8],
            show (x == "Error Information Log Entries") = false from by simp [h9],
            show (x == "Warning Comp. Temperature Time") = false from by simp [h10],
            show (x == "Critical Comp. Temperature Time") = false from by simp [h11]]
          rfl
        refine ⟨?_, by simp⟩
        simp [hlk]
      | cons z zs => intro ms h; cases h



theorem nvmeLoop_shape (d : Device) : ∀ (ls : List String) (out : List Metric),
    nvmeLoop d ls = .ok out →
    out.map Metric.name =
      ls.filterMap (fun l => (nvmeLabelOf l).bind (fun lab => nvmeDispatch.lookup lab)) ∧
    ∀ m ∈ out, m.labels = d.baseLabels
  | [], out, h => by
    cases h
    simp
  | l :: rest, out, h => by
    rw [nvmeLoop] at h
    cases hline : nvmeLine d l with
    | error e => rw [hline] at h; cases h
    | ok ms =>
      rw [hline] at h
      cases hrest : nvmeLoop d rest with
      | error e => rw [hrest] at h; cases h
      | ok tail =>
        rw [hrest] at h
        cases h
        obtain ⟨hn1, hb1⟩ := nvmeLine_shape d l ms hline
        obtain ⟨hn2, hb2⟩ := nvmeLoop_shape d rest tail hrest
        constructor
        · rw [List.map_append, hn1, hn2, List.filterMap_cons]
          cases hopt : (nvmeLabelOf l).bind (fun lab => nvmeDispatch.lookup lab) <;>
            simp [hopt]
        · intro m hm
          rcases List.mem_append.mp hm with hm | hm
          · exact hb1 m hm
          · exact hb2 m hm

theorem dispatch_inj (a b s : String) (ha : nvmeDispatch.lookup a = some s)
    (hb : nvmeDispatch.lookup b = some s) : a = b := by
  have hma := lookup_mem _ _ _ ha
  have hmb := lookup_mem _ _ _ hb
  have hkey : ∀ p ∈ nvmeDispatch, ∀ q ∈ nvmeDispatch, p.2 = q.2 → p.1 = q.1 := by decide
  exact hkey (a, s) hma (b, s) hmb rfl

theorem nvme_names_pairwise : ∀ (ls : List String),
    (∀ lab ∈ nvmeDispatch.map (fun kv => kv.1),
      (ls.countP (fun l => nvmeLabelOf l == some lab)) ≤ 1) →
    (ls.filterMap
      (fun l => (nvmeLabelOf l).bind (fun lab => nvmeDispatch.lookup lab))).Pairwise (· ≠ ·)
  | [], _ => by simp
  | l :: rest, hcount => by
    have hcount' : ∀ lab ∈ nvmeDispatch.map (fun kv => kv.1),
        (rest.countP (fun x => nvmeLabelOf x == some lab)) ≤ 1 := by
      intro lab hlab
      refine le_trans ?_ (hcount lab hlab)
      rw [List.countP_cons]
      omega
    rw [List.filterMap_cons]
    cases hopt : (nvmeLabelOf l).bind (fun lab => nvmeDispatch.lookup lab) with
    | none => exact nvme_names_pairwise rest hcount'
    | some s =>
      rw [List.pairwise_cons]
      refine ⟨?_, nvme_names_pairwise rest hcount'⟩
      intro y hy hsy
      subst hsy
      rcases Option.bind_eq_some.mp hopt with ⟨lab, hlab, hlk⟩
      rcases List.mem_filterMap.mp hy with ⟨l2, hl2, hopt2⟩
      rcases Option.bind_eq_some.mp hopt2 with ⟨lab2, hlab2, hlk2⟩
      have he : lab2 = lab := dispatch_inj lab2 lab s hlk2 hlk
      subst he
      have hmemlab : lab2 ∈ nvmeDispatch.map (fun kv => kv.1) := by
        have := lookup_mem _ _ _ hlk
        exact List.mem_map.mpr ⟨(lab2, s), this, rfl⟩
      have hc := hcount lab2 hmemlab
      rw [List.countP_cons] at hc
      have hpl : (nvmeLabelOf l == some lab2) = true := by simp [hlab]
      rw [hpl] at hc
      have hc2 : rest.countP (fun x => nvmeLabelOf x == some lab2) + 1 ≤ 1 := by
        simpa using hc
      have hpos : 0 < rest.countP (fun x => nvmeLabelOf x == some lab2) := by
        rw [List.countP_pos_iff]
        exact ⟨l2, hl2, by simp [hlab2]⟩
      omega



theorem dictSet_lookup_ne (k k' v : String) (h : k ≠ k') : ∀ (l : List (String × String)),
    (dictSet l k' v).lookup k = l.lookup k
  | [] => by
    rw [dictSet]
    simp [List.lookup, beq_eq_false_iff_ne.mpr h]
  | (k0, v0) :: rest => by
    rw [dictSet]
    by_cases h0 : k0 = k'
    · rw [if_pos h0]
      have hk0 : (k == k0) = false := beq_eq_false_iff_ne.mpr (h0 ▸ h)
      rw [List.lookup, List.lookup, hk0]
    · rw [if_neg h0]
      rw [List.lookup, List.lookup]
      cases hk : k == k0 with
      | true => rfl
      | false => exact dictSet_lookup_ne k k' v h rest
  termination_by l => l.length

theorem dictMerge_lookup (k : String) : ∀ (b a : List (String × String)),
    (∀ kv ∈ b, kv.1 ≠ k) → (dictMerge a b).lookup k = a.lookup k
  | [], a, _ => rfl
  | kv :: rest, a, h => by
    have h1 : (dictMerge a (kv :: rest)) = dictMerge (dictSet a kv.1 kv.2) rest := rfl
    rw [h1, dictMerge_lookup k rest _ (fun p hp => h p (List.mem_cons_of_mem kv hp))]
    exact dictSet_lookup_ne k kv.1 kv.2 (fun e => h kv (by simp) e.symm) _

theorem base_lookup (d : Device) :
    (d.baseLabels.lookup ("device") = some d.path ∧
     d.baseLabels.lookup ("disk") = some d.disk) := by
  constructor <;> rfl

theorem deviceInfoMetric_anchored (d : Device) (out : String) :
    BaseAnchored d (deviceInfoMetric d out) := by
  rw [deviceInfoMetric, BaseAnchored]
  have hkeys : ∀ kv ∈ (device_info_map.filterMap
      (fun kv => ((dictOfPairs (deviceInfoPairs out)).lookup kv.1).map
        (fun x => (kv.2, x)))), kv.1 ≠ "device" ∧ kv.1 ≠ "disk" := by
    intro kv hkv
    rcases List.mem_filterMap.mp hkv with ⟨p, hp, he⟩
    rcases Option.map_eq_some'.mp he with ⟨x, _, hx⟩
    subst hx
    have hval : ∀ s ∈ device_info_map.map (fun q => q.2),
        s ≠ "device" ∧ s ≠ "disk" := by decide
    exact hval p.2 (List.mem_map.mpr ⟨p, hp, rfl⟩)
  constructor
  · rw [dictMerge_lookup _ _ _ (fun kv hkv => (hkeys kv hkv).1)]
    exact (base_lookup d).1
  · rw [dictMerge_lookup _ _ _ (fun kv hkv => (hkeys kv hkv).2)]
    exact (base_lookup d).2



theorem rowMetrics_name_label (d : Device) (nm v w t r : String) :
    ∀ m ∈ rowMetrics d nm v w t r, m.labels.lookup ("name") = some nm := by
  simp [rowMetrics, List.lookup]

theorem rowMetrics_anchored (d : Device) (nm v w t r : String) :
    ∀ m ∈ rowMetrics d nm v w t r, BaseAnchored d m := by
  simp [rowMetrics, BaseAnchored, List.lookup, Device.baseLabels]

theorem rowMetrics_names (d : Device) (nm v w t r : String) :
    ∀ m ∈ rowMetrics d nm v w t r,
      m.name ∈ ["attr_value", "attr_worst", "attr_threshold", "attr_raw_value"] := by
  simp [rowMetrics]

theorem NoConflict_of_ne {m1 m2 : Metric} (h : m1.name ≠ m2.name) : NoConflict m1 m2 :=
  fun e => absurd e h

theorem rowMetrics_pairwise (d : Device) (nm v w t r : String) :
    (rowMetrics d nm v w t r).Pairwise NoConflict := by
  rw [rowMetrics]
  refine List.Pairwise.cons (fun m hm => ?_) (List.Pairwise.cons (fun m hm => ?_)
    (List.Pairwise.cons (fun m hm => ?_) (List.Pairwise.cons (fun m hm => ?_)
      List.Pairwise.nil)))
  · simp only [List.mem_cons, List.not_mem_nil, or_false] at hm
    rcases hm with rfl | rfl | rfl <;> exact NoConflict_of_ne (by simp)
  · simp only [List.mem_cons, List.not_mem_nil, or_false] at hm
    rcases hm with rfl | rfl <;> exact NoConflict_of_ne (by simp)
  · simp only [List.mem_cons, List.not_mem_nil, or_false] at hm
    rcases hm with rfl <;> exact NoConflict_of_ne (by simp)
  · simp at hm

theorem ataLoop_shape (d : Device) : ∀ (rows : List (List String)) (seen : List String)
    (out : List Metric), ataLoop d rows seen = .ok out →
    ∃ gs : List (String × String × String × String × String),
      out = gs.bind (fun g => rowMetrics d g.1 g.2.1 g.2.2.1 g.2.2.2.1 g.2.2.2.2) ∧
      (gs.map (fun g => g.1)).Nodup ∧ ∀ g ∈ gs, ¬ g.1 ∈ seen
  | [], seen, out, h => by
    cases h
    exact ⟨[], by simp, by simp, by simp⟩
  | ts :: rest, seen, out, h => by
    by_cases he : ts = []
    · subst he
      rw [ataLoop_skip_empty] at h
      exact ataLoop_shape d rest seen out h
    · by_cases h2 : ts.length < 2
      · rw [ataLoop, if_neg he, if_pos h2] at h
        cases h
      · rw [ataLoop, if_neg he, if_neg h2] at h
        by_cases hwl : smart_attributes_whitelist.contains (pyLower (ts.getD 1 (""))) = true
        swap
        · have hwl0 : smart_attributes_whitelist.contains (pyLower (ts.getD 1 (""))) = false := by
            simpa using hwl
          simp only [hwl0, Bool.not_false, if_true] at h
          exact ataLoop_shape d rest seen out h
        · simp only [hwl, Bool.not_true, Bool.false_eq_true, if_false] at h
          by_cases h9 : ts.length ≤ 9
          · rw [if_pos h9] at h
            cases h
          · rw [if_neg h9] at h
            cases hdig : leadingDigits (joinSpace (ts.drop 9)) with
            | none =>
              rw [hdig] at h
              exact ataLoop_shape d rest seen out h
            | some raw =>
              rw [hdig] at h
              by_cases hseen : seen.contains (pyLower (ts.getD 1 (""))) = true
              · simp only [hseen, if_true] at h
                exact ataLoop_shape d rest seen out h
              · have hseen0 : seen.contains (pyLower (ts.getD 1 (""))) = false := by
                  simpa using hseen
                simp only [hseen0, Bool.false_eq_true, if_false] at h
                cases hrest : ataLoop d rest (pyLower (ts.getD 1 ("")) :: seen) with
                | error e => rw [hrest] at h; cases h
                | ok tail =>
                  rw [hrest] at h
                  cases h
                  obtain ⟨gs, hout, hnd, hall⟩ := ataLoop_shape d rest _ tail hrest
                  refine ⟨(pyLower (ts.getD 1 ("")), ts.getD 3 (""), ts.getD 4 (""),
                    normalizeThreshold (ts.getD 5 ("")), raw) :: gs, ?_, ?_, ?_⟩
                  · rw [hout]
                    rfl
                  · simp only [List.map_cons, List.nodup_cons]
                    refine ⟨?_, hnd⟩
                    intro hmem
                    rcases List.mem_map.mp hmem with ⟨g, hg, he2⟩
                    exact hall g hg (by rw [he2]; exact List.mem_cons_self _ _)
                  · intro g hg
                    rcases List.mem_cons.mp hg with rfl | hg
                    · simpa using hseen0
                    · exact fun hm => hall g hg (List.mem_cons_of_mem _ hm)



theorem anchored_of_base {d : Device} {m : Metric} (h : m.labels = d.baseLabels) :
    BaseAnchored d m := by
  rw [BaseAnchored, h]
  exact ⟨rfl, rfl⟩

theorem ata_bind_pairwise (d : Device) :
    ∀ (gs : List (String × String × String × String × String)),
    (gs.map (fun g => g.1)).Nodup →
    (gs.bind (fun g => rowMetrics d g.1 g.2.1 g.2.2.1 g.2.2.2.1 g.2.2.2.2)).Pairwise NoConflict
  | [], _ => by simp
  | g :: gs, hnd => by
    simp only [List.map_cons, List.nodup_cons] at hnd
    have hb : ((g :: gs).bind (fun g => rowMetrics d g.1 g.2.1 g.2.2.1 g.2.2.2.1 g.2.2.2.2)) =
        rowMetrics d g.1 g.2.1 g.2.2.1 g.2.2.2.1 g.2.2.2.2 ++
          gs.bind (fun g => rowMetrics d g.1 g.2.1 g.2.2.1 g.2.2.2.1 g.2.2.2.2) := rfl
    rw [hb, List.pairwise_append]
    refine ⟨rowMetrics_pairwise d _ _ _ _ _, ata_bind_pairwise d gs hnd.2, ?_⟩
    intro m1 hm1 m2 hm2 hname hmap
    exfalso
    have e1 := rowMetrics_name_label d _ _ _ _ _ m1 hm1
    rcases List.mem_bind.mp hm2 with ⟨g2, hg2, hm2b⟩
    have e2 := rowMetrics_name_label d _ _ _ _ _ m2 hm2b
    have hk := hmap "name"
    rw [e1, e2] at hk
    have hgg : g.1 = g2.1 := by injection hk
    exact hnd.1 (List.mem_map.mpr ⟨g2, hg2, hgg.symm⟩)

theorem ata_bind_anchored (d : Device)
    (gs : List (String × String × String × String × String)) :
    ∀ m ∈ gs.bind (fun g => rowMetrics d g.1 g.2.1 g.2.2.1 g.2.2.2.1 g.2.2.2.2),
      BaseAnchored d m := by
  intro m hm
  rcases List.mem_bind.mp hm with ⟨g, _, hmg⟩
  exact rowMetrics_anchored d _ _ _ _ _ m hmg

theorem ata_bind_names (d : Device)
    (gs : List (String × String × String × String × String)) :
    ∀ m ∈ gs.bind (fun g => rowMetrics d g.1 g.2.1 g.2.2.1 g.2.2.2.1 g.2.2.2.2),
      m.name ∈ ["attr_value", "attr_worst", "attr_threshold", "attr_raw_value"] := by
  intro m hm
  rcases List.mem_bind.mp hm with ⟨g, _, hmg⟩
  exact rowMetrics_names d _ _ _ _ _ m hmg

theorem ataErrorCountMetric_labels (d : Device) (out : String) :
    (ataErrorCountMetric d out).labels = d.baseLabels := by
  rw [ataErrorCountMetric]
  cases (pyLines out).findSome? ataErrLine <;> rfl

theorem ataErrorCountMetric_name (d : Device) (out : String) :
    (ataErrorCountMetric d out).name = "device_errors" := by
  rw [ataErrorCountMetric]
  cases (pyLines out).findSome? ataErrLine <;> rfl



theorem satBranch_props (o : Oracle) (d : Device) (ms : List Metric)
    (log : List (List String)) (h : satBranch o d = .ok (ms, log)) :
    ms.Pairwise NoConflict ∧ (∀ m ∈ ms, BaseAnchored d m) ∧
    ∀ m ∈ ms, m.name ∈
      ["attr_value", "attr_worst", "attr_threshold", "attr_raw_value", "device_errors"] := by
  rw [satBranch] at h
  by_cases hsat : pyStartsWith d.typ ("sat") = true
  · rw [if_pos hsat] at h
    by_cases hr : (o (attrsCmd d)).1 = true
    · simp only [hr, Bool.not_true, Bool.false_eq_true, if_false] at h
      cases hata : collect_ata_metrics d (o (attrsCmd d)).2 with
      | error e => rw [hata] at h; cases h
      | ok ams =>
        rw [hata] at h
        have hms : ms = ams ++ [ataErrorCountMetric d (o (xerrorCmd d)).2] := by
          cases h
          rfl
        subst hms
        obtain ⟨gs, hout, hnd, _⟩ := ataLoop_shape d (ataLines (o (attrsCmd d)).2) [] ams hata
        subst hout
        refine ⟨?_, ?_, ?_⟩
        · rw [List.pairwise_append]
          refine ⟨ata_bind_pairwise d gs hnd, by simp, ?_⟩
          intro m1 hm1 m2 hm2 hname
          exfalso
          have hn1 := ata_bind_names d gs m1 hm1
          simp only [List.mem_singleton] at hm2
          subst hm2
          rw [ataErrorCountMetric_name] at hname
          rw [hname] at hn1
          simp at hn1
        · intro m hm
          rcases List.mem_append.mp hm with hm | hm
          · exact ata_bind_anchored d gs m hm
          · simp only [List.mem_singleton] at hm
            subst hm
            exact anchored_of_base (ataErrorCountMetric_labels d _)
        · intro m hm
          rcases List.mem_append.mp hm with hm | hm
          · have := ata_bind_names d gs m hm
            simp at this ⊢
            tauto
          · simp only [List.mem_singleton] at hm
            subst hm
            rw [ataErrorCountMetric_name]
            simp
    · have hr0 : (o (attrsCmd d)).1 = false := by simpa using hr
      simp only [hr0, Bool.not_false, if_true] at h
      cases h
  · rw [if_neg hsat] at h
    cases h
    exact ⟨List.Pairwise.nil, by simp, by simp⟩

theorem nvmeBranch_props (o : Oracle) (d : Device) (ms : List Metric)
    (log : List (List String)) (h : nvmeBranch o d = .ok (ms, log))
    (hdl : d.typ = "nvme" → NvmeDistinctLabels o d) :
    ms.Pairwise NoConflict ∧ (∀ m ∈ ms, BaseAnchored d m) ∧
    ∀ m ∈ ms, m.name ∈ nvmeDispatch.map (fun kv => kv.2) := by
  rw [nvmeBranch] at h
  by_cases ht : d.typ = "nvme"
  · rw [if_pos ht] at h
    by_cases hr : (o (attrsCmd d)).1 = true
    · simp only [hr, Bool.not_true, Bool.false_eq_true, if_false] at h
      cases hnv : collect_nvme_metrics d (o (attrsCmd d)).2 with
      | error e => rw [hnv] at h; cases h
      | ok ams =>
        rw [hnv] at h
        have hms : ms = ams := by
          cases h
          rfl
        subst hms
        obtain ⟨hnames, hbase⟩ := nvmeLoop_shape d (nvmeLines (o (attrsCmd d)).2) ms hnv
        refine ⟨?_, fun m hm => anchored_of_base (hbase m hm), ?_⟩
        · have hpw : (ms.map Metric.name).Pairwise (· ≠ ·) := by
            rw [hnames]
            exact nvme_names_pairwise (nvmeLines (o (attrsCmd d)).2) (hdl ht)
          rw [List.pairwise_map] at hpw
          exact hpw.imp (fun hne => NoConflict_of_ne hne)
        · intro m hm
          have : m.name ∈ ms.map Metric.name := List.mem_map.mpr ⟨m, hm, rfl⟩
          rw [hnames] at this
          rcases List.mem_filterMap.mp this with ⟨l, _, hopt⟩
          rcases Option.bind_eq_some.mp hopt with ⟨lab, _, hlk⟩
          exact List.mem_map.mpr ⟨(lab, m.name), lookup_mem _ _ _ hlk, rfl⟩
    · have hr0 : (o (attrsCmd d)).1 = false := by simpa using hr
      simp only [hr0, Bool.not_false, if_true] at h
      cases h
  · rw [if_neg ht] at h
    cases h
    exact ⟨List.Pairwise.nil, by simp, by simp⟩



theorem runDevice_props (o : Oracle) (w : Bool) (now : Nat) (d : Device)
    (ms : List Metric) (log : List (List String))
    (h : runDevice o w now d = .ok (ms, log))
    (hdl : d.typ = "nvme" → NvmeDistinctLabels o d) :
    ms.Pairwise NoConflict ∧ ∀ m ∈ ms, BaseAnchored d m := by
  rw [runDevice] at h
  by_cases hact : (!(deviceIsActive o d) && !w) = true
  · rw [if_pos hact] at h
    have hms : ms = [⟨"smartctl_run", d.baseLabels, .nat now⟩,
        ⟨"device_active", d.baseLabels, .bool (deviceIsActive o d)⟩] := by
      cases h
      rfl
    subst hms
    constructor
    · refine List.Pairwise.cons (fun m hm => ?_) (List.Pairwise.cons (by simp) List.Pairwise.nil)
      simp only [List.mem_cons, List.not_mem_nil, or_false] at hm
      subst hm
      exact NoConflict_of_ne (by simp)
    · intro m hm
      simp only [List.mem_cons, List.not_mem_nil, or_false] at hm
      rcases hm with rfl | rfl <;> exact anchored_of_base rfl
  · rw [if_neg hact] at h
    by_cases hr : (o (infoCmd d)).1 = true
    swap
    · have hr0 : (o (infoCmd d)).1 = false := by simpa using hr
      simp only [hr0, Bool.not_false, if_true] at h
      cases h
    · simp only [hr, Bool.not_true, Bool.false_eq_true, if_false] at h
      cases hcaps : capsQuery o d with
      | error e => rw [hcaps] at h; cases h
      | ok caps =>
        rw [hcaps] at h
        obtain ⟨⟨avail, enabled⟩, capsLog⟩ := caps
        by_cases hav : avail = true
        swap
        · have hav0 : avail = false := by simpa using hav
          subst hav0
          simp only [Bool.not_false, if_true] at h
          have hms : ms = [⟨"smartctl_run", d.baseLabels, .nat now⟩,
              ⟨"device_active", d.baseLabels, .bool (deviceIsActive o d)⟩,
              deviceInfoMetric d (o (infoCmd d)).2,
              ⟨"device_smart_available", d.baseLabels, .bool false⟩,
              ⟨"device_smart_enabled", d.baseLabels, .bool enabled⟩] := by
            cases h
            rfl
          subst hms
          constructor
          · refine List.Pairwise.cons (fun m hm => ?_) (List.Pairwise.cons (fun m hm => ?_)
              (List.Pairwise.cons (fun m hm => ?_) (List.Pairwise.cons (fun m hm => ?_)
                (List.Pairwise.cons (by simp) List.Pairwise.nil))))
            · simp only [List.mem_cons, List.not_mem_nil, or_false] at hm
              rcases hm with rfl | rfl | rfl | rfl <;>
                exact NoConflict_of_ne (by simp [deviceInfoMetric])
            · simp only [List.mem_cons, List.not_mem_nil, or_false] at hm
              rcases hm with rfl | rfl | rfl <;>
                exact NoConflict_of_ne (by simp [deviceInfoMetric])
            · simp only [List.mem_cons, List.not_mem_nil, or_false] at hm
              rcases hm with rfl | rfl <;>
                exact NoConflict_of_ne (by simp [deviceInfoMetric])
            · simp only [List.mem_cons, List.not_mem_nil, or_false] at hm
              rcases hm with rfl <;> exact NoConflict_of_ne (by simp)
          · intro m hm
            simp only [List.mem_cons, List.not_mem_nil, or_false] at hm
            rcases hm with rfl | rfl | rfl | rfl | rfl
            · exact anchored_of_base rfl
            · exact anchored_of_base rfl
            · exact deviceInfoMetric_anchored d _
            · exact anchored_of_base rfl
            · exact anchored_of_base rfl
        · subst hav
          simp only [Bool.not_true, Bool.false_eq_true, if_false] at h
          cases hsat : satBranch o d with
          | error e => rw [hsat] at h; cases h
          | ok satR =>
            rw [hsat] at h
            obtain ⟨satMs, satLog⟩ := satR
            cases hnvb : nvmeBranch o d with
            | error e => rw [hnvb] at h; cases h
            | ok nvR =>
              rw [hnvb] at h
              obtain ⟨nvmeMs, nvmeLog⟩ := nvR
              have hms : ms = ([⟨"smartctl_run", d.baseLabels, .nat now⟩,
                  ⟨"device_active", d.baseLabels, .bool (deviceIsActive o d)⟩,
                  deviceInfoMetric d (o (infoCmd d)).2,
                  ⟨"device_smart_available", d.baseLabels, .bool true⟩,
                  ⟨"device_smart_enabled", d.baseLabels, .bool enabled⟩,
                  healthMetric o d] ++ satMs ++ nvmeMs) := by
                cases h
                rfl
              subst hms
              obtain ⟨hsp, hsa, hsn⟩ := satBranch_props o d satMs satLog hsat
              obtain ⟨hnp, hna, hnn⟩ := nvmeBranch_props o d nvmeMs nvmeLog hnvb hdl
              have hsingles : ∀ m ∈ [(⟨"smartctl_run", d.baseLabels, .nat now⟩ : Metric),
                  ⟨"device_active", d.baseLabels, .bool (deviceIsActive o d)⟩,
                  deviceInfoMetric d (o (infoCmd d)).2,
                  ⟨"device_smart_available", d.baseLabels, .bool true⟩,
                  ⟨"device_smart_enabled", d.baseLabels, .bool enabled⟩,
                  healthMetric o d],
                  m.name ∈ ["smartctl_run", "device_active", "device_info",
                    "device_smart_available", "device_smart_enabled",
                    "device_smart_healthy"] := by
                intro m hm
                simp only [List.mem_cons, List.not_mem_nil, or_false] at hm
                rcases hm with rfl | rfl | rfl | rfl | rfl | rfl <;>
                  simp [deviceInfoMetric, healthMetric]
              constructor
              · rw [List.pairwise_append, List.pairwise_append]
                refine ⟨⟨?_, hsp, ?_⟩, hnp, ?_⟩
                · -- the six singletons are pairwise distinct by name
                  refine List.Pairwise.cons (fun m hm => ?_) (List.Pairwise.cons (fun m hm => ?_)
                    (List.Pairwise.cons (fun m hm => ?_) (List.Pairwise.cons (fun m hm => ?_)
                      (List.Pairwise.cons (fun m hm => ?_)
                        (List.Pairwise.cons (by simp) List.Pairwise.nil)))))
                  · simp only [List.mem_cons, List.not_mem_nil, or_false] at hm
                    rcases hm with rfl | rfl | rfl | rfl | rfl <;>
                      exact NoConflict_of_ne (by simp [deviceInfoMetric, healthMetric])
                  · simp only [List.mem_cons, List.not_mem_nil, or_false] at hm
                    rcases hm with rfl | rfl | rfl | rfl <;>
                      exact NoConflict_of_ne (by simp [deviceInfoMetric, healthMetric])
                  · simp only [List.mem_cons, List.not_mem_nil, or_false] at hm
                    rcases hm with rfl | rfl | rfl <;>
                      exact NoConflict_of_ne (by simp [deviceInfoMetric, healthMetric])
                  · simp only [List.mem_cons, List.not_mem_nil, or_false] at hm
                    rcases hm with rfl | rfl <;>
                      exact NoConflict_of_ne (by simp [deviceInfoMetric, healthMetric])
                  · simp only [List.mem_cons, List.not_mem_nil, or_false] at hm
                    rcases hm with rfl <;>
                      exact NoConflict_of_ne (by simp [deviceInfoMetric, healthMetric])
                · -- singletons vs sat metrics: different names
                  intro m1 hm1 m2 hm2
                  refine NoConflict_of_ne ?_
                  have h1 := hsingles m1 hm1
                  have h2 := hsn m2 hm2
                  intro he
                  rw [he] at h1
                  have : ∀ s ∈ ["attr_value", "attr_worst", "attr_threshold",
                      "attr_raw_value", "device_errors"],
                      s ∉ ["smartctl_run", "device_active", "device_info",
                        "device_smart_available", "device_smart_enabled",
                        "device_smart_healthy"] := by decide
                  exact this m2.name h2 h1
                · -- singletons/sat vs nvme metrics: different names
                  intro m1 hm1 m2 hm2
                  refine NoConflict_of_ne ?_
                  have h2 := hnn m2 hm2
                  intro he
                  rcases List.mem_append.mp hm1 with hm1 | hm1
                  · have h1 := hsingles m1 hm1
                    rw [he] at h1
                    have : ∀ s ∈ nvmeDispatch.map (fun kv => kv.2),
                        s ∉ ["smartctl_run", "device_active", "device_info",
                          "device_smart_available", "device_smart_enabled",
                          "device_smart_healthy"] := by decide
                    exact this m2.name h2 h1
                  · have h1 := hsn m1 hm1
                    rw [he] at h1
                    have : ∀ s ∈ nvmeDispatch.map (fun kv => kv.2),
                        s ∉ ["attr_value", "attr_worst", "attr_threshold",
                          "attr_raw_value", "device_errors"] := by decide
                    exact this m2.name h2 h1
              · intro m hm
                rcases List.mem_append.mp hm with hm | hm
                · rcases List.mem_append.mp hm with hm | hm
                  · simp only [List.mem_cons, List.not_mem_nil, or_false] at hm
                    rcases hm with rfl | rfl | rfl | rfl | rfl | rfl
                    · exact anchored_of_base rfl
                    · exact anchored_of_base rfl
                    · exact deviceInfoMetric_anchored d _
                    · exact anchored_of_base rfl
                    · exact anchored_of_base rfl
                    · exact anchored_of_base rfl
                  · exact hsa m hm
                · exact hna m hm



theorem collectDisks_props (o : Oracle) (w : Bool) (now : Nat) :
    ∀ (ds : List Device) (ms : List Metric),
    collectDisks o w now ds = .ok ms →
    (∀ d ∈ ds, d.typ = "nvme" → NvmeDistinctLabels o d) →
    ds.Pairwise (fun a b => a.baseLabels ≠ b.baseLabels) →
    ms.Pairwise NoConflict ∧ ∀ m ∈ ms, ∃ d ∈ ds, BaseAnchored d m
  | [], ms, h, _, _ => by
    cases h
    exact ⟨List.Pairwise.nil, by simp⟩
  | d :: ds, ms, h, hdl, hbase => by
    rw [collectDisks] at h
    cases hrd : runDevice o w now d with
    | error e => rw [hrd] at h; cases h
    | ok pair =>
      rw [hrd] at h
      obtain ⟨dms, dlog⟩ := pair
      cases hrest : collectDisks o w now ds with
      | error e => rw [hrest] at h; cases h
      | ok tail =>
        rw [hrest] at h
        have hms : ms = dms ++ tail := by
          cases h
          rfl
        subst hms
        rw [List.pairwise_cons] at hbase
        obtain ⟨hdp, hda⟩ := runDevice_props o w now d dms dlog hrd (hdl d (by simp))
        obtain ⟨htp, hta⟩ := collectDisks_props o w now ds tail hrest
          (fun d2 h2 => hdl d2 (List.mem_cons_of_mem d h2)) hbase.2
        constructor
        · rw [List.pairwise_append]
          refine ⟨hdp, htp, ?_⟩
          intro m1 hm1 m2 hm2 _ hmap
          exfalso
          obtain ⟨e1d, e1i⟩ := hda m1 hm1
          obtain ⟨d2, hd2, e2d, e2i⟩ := hta m2 hm2
          have h1 := hmap "device"
          rw [e1d, e2d] at h1
          have h2 := hmap "disk"
          rw [e1i, e2i] at h2
          apply hbase.1 d2 hd2
          rw [Device.baseLabels, Device.baseLabels]
          injection h1 with h1
          injection h2 with h2
          rw [h1, h2]
        · intro m hm
          rcases List.mem_append.mp hm with hm | hm
          · exact ⟨d, by simp, hda m hm⟩
          · obtain ⟨d2, hd2, ha⟩ := hta m hm
            exact ⟨d2, List.mem_cons_of_mem d hd2, ha⟩

/-- C1 (amended): within one collection run, provided the scanned devices have
pairwise-distinct base label pairs (device path, disk index) and each NVMe
device's attribute block names each dispatch label on at most one line, the
orchestrator never yields two metrics with the same name and the same label
mapping but different values. -/
theorem claim_c1_amended (o : Oracle) (wakeupDisks : Bool) (now : Nat)
    (ds : List Device) (ms : List Metric)
    (hrun : collectDisks o wakeupDisks now ds = .ok ms)
    (hbase : ds.Pairwise (fun a b => a.baseLabels ≠ b.baseLabels))
    (hnvme : ∀ d ∈ ds, d.typ = "nvme" → NvmeDistinctLabels o d) :
    ms.Pairwise NoConflict :=
  (collectDisks_props o wakeupDisks now ds ms hrun hnvme hbase).1



/-- C1 counterexample: with command output containing two `Temperature` lines
for one NVMe device, the orchestrator emits two temperature_celcius metrics
with identical labels and different values, so the claimed invariant fails on
the code as stated. -/
theorem claim_c1_counterexample :
    collectDisks
        (fun args => (true,
          if args = ["--attributes", "--device", "nvme", "/dev/nvme0"] then
            "1\n2\n3\n4\n5\n6\nTemperature: 30 Celsius\nTemperature: 40 Celsius"
          else ""))
        false 0 [⟨"/dev/nvme0", "nvme"⟩] =
      .ok [ ⟨"smartctl_run", [("device", "/dev/nvme0"), ("disk", "0")], .nat 0⟩,
            ⟨"device_active", [("device", "/dev/nvme0"), ("disk", "0")], .bool true⟩,
            ⟨"device_info", [("device", "/dev/nvme0"), ("disk", "0")], .bool true⟩,
            ⟨"device_smart_available", [("device", "/dev/nvme0"), ("disk", "0")], .bool true⟩,
            ⟨"device_smart_enabled", [("device", "/dev/nvme0"), ("disk", "0")], .bool true⟩,
            ⟨"device_smart_healthy", [("device", "/dev/nvme0"), ("disk", "0")], .bool false⟩,
            ⟨"temperature_celcius", [("device", "/dev/nvme0"), ("disk", "0")], .str " 30"⟩,
            ⟨"temperature_celcius", [("device", "/dev/nvme0"), ("disk", "0")], .str " 40"⟩ ] ∧
    ¬ ([ ⟨"smartctl_run", [("device", "/dev/nvme0"), ("disk", "0")], .nat 0⟩,
         ⟨"device_active", [("device", "/dev/nvme0"), ("disk", "0")], .bool true⟩,
         ⟨"device_info", [("device", "/dev/nvme0"), ("disk", "0")], .bool true⟩,
         ⟨"device_smart_available", [("device", "/dev/nvme0"), ("disk", "0")], .bool true⟩,
         ⟨"device_smart_enabled", [("device", "/dev/nvme0"), ("disk", "0")], .bool true⟩,
         ⟨"device_smart_healthy", [("device", "/dev/nvme0"), ("disk", "0")], .bool false⟩,
         ⟨"temperature_celcius", [("device", "/dev/nvme0"), ("disk", "0")], .str " 30"⟩,
         ⟨"temperature_celcius", [("device", "/dev/nvme0"), ("disk", "0")], .str " 40"⟩ ] :
       List Metric).Pairwise NoConflict := by
  constructor
  · rfl
  · intro hp
    have h2 := (List.pairwise_cons.mp (List.pairwise_cons.mp (List.pairwise_cons.mp
      (List.pairwise_cons.mp (List.pairwise_cons.mp
        (List.pairwise_cons.mp hp).2).2).2).2).2).2
    have h3 := (List.pairwise_cons.mp h2).1 _ (List.mem_cons_self _ _)
    have h4 := h3 rfl (fun k => rfl)
    exact absurd h4 (by decide)

/-- Witness for the amended C1 on a concrete NVMe device whose attribute
block names each label once. -/
theorem claim_c1_witness :
    collectDisks
        (fun args => (true,
          if args = ["--attributes", "--device", "nvme", "/dev/nvme0"] then
            "1\n2\n3\n4\n5\n6\nTemperature: 30 Celsius\nPower Cycle: 7"
          else ""))
        false 0 [⟨"/dev/nvme0", "nvme"⟩] =
      .ok [ ⟨"smartctl_run", [("device", "/dev/nvme0"), ("disk", "0")], .nat 0⟩,
            ⟨"device_active", [("device", "/dev/nvme0"), ("disk", "0")], .bool true⟩,
            ⟨"device_info", [("device", "/dev/nvme0"), ("disk", "0")], .bool true⟩,
            ⟨"device_smart_available", [("device", "/dev/nvme0"), ("disk", "0")], .bool true⟩,
            ⟨"device_smart_enabled", [("device", "/dev/nvme0"), ("disk", "0")], .bool true⟩,
            ⟨"device_smart_healthy", [("device", "/dev/nvme0"), ("disk", "0")], .bool false⟩,
            ⟨"temperature_celcius", [("device", "/dev/nvme0"), ("disk", "0")], .str " 30"⟩,
            ⟨"power_cycles_total", [("device", "/dev/nvme0"), ("disk", "0")], .str " 7"⟩ ] ∧
    (([⟨"/dev/nvme0", "nvme"⟩] : List Device).Pairwise
      (fun a b => a.baseLabels ≠ b.baseLabels)) ∧
    (∀ d ∈ ([⟨"/dev/nvme0", "nvme"⟩] : List Device), d.typ = "nvme" →
      NvmeDistinctLabels
        (fun args => (true,
          if args = ["--attributes", "--device", "nvme", "/dev/nvme0"] then
            "1\n2\n3\n4\n5\n6\nTemperature: 30 Celsius\nPower Cycle: 7"
          else "")) d) ∧
    ([ ⟨"smartctl_run", [("device", "/dev/nvme0"), ("disk", "0")], .nat 0⟩,
       ⟨"device_active", [("device", "/dev/nvme0"), ("disk", "0")], .bool true⟩,
       ⟨"device_info", [("device", "/dev/nvme0"), ("disk", "0")], .bool true⟩,
       ⟨"device_smart_available", [("device", "/dev/nvme0"), ("disk", "0")], .bool true⟩,
       ⟨"device_smart_enabled", [("device", "/dev/nvme0"), ("disk", "0")], .bool true⟩,
       ⟨"device_smart_healthy", [("device", "/dev/nvme0"), ("disk", "0")], .bool false⟩,
       ⟨"temperature_celcius", [("device", "/dev/nvme0"), ("disk", "0")], .str " 30"⟩,
       ⟨"power_cycles_total", [("device", "/dev/nvme0"), ("disk", "0")], .str " 7"⟩ ] :
     List Metric).Pairwise NoConflict := by
  refine ⟨rfl, by decide, ?_, ?_⟩
  · intro d hd _
    simp only [List.mem_singleton] at hd
    subst hd
    rw [NvmeDistinctLabels]
    decide
  · refine claim_c1_amended
      (fun args => (true,
        if args = ["--attributes", "--device", "nvme", "/dev/nvme0"] then
          "1\n2\n3\n4\n5\n6\nTemperature: 30 Celsius\nPower Cycle: 7"
        else ""))
      false 0 [⟨"/dev/nvme0", "nvme"⟩] _ rfl (by decide) ?_
    intro d hd _
    simp only [List.mem_singleton] at hd
    subst hd
    rw [NvmeDistinctLabels]
    decide

end Smartmon
